import Mathlib

/-!
Verification of the mainloop orchestrator core (worker workflow,
main-thread result handling, branch-name derivation) against its
natural-language specification.

The definitions below are a shallow embedding of the Python sources:

* `backend/src/mainloop/workflows/worker.py` (worker state machine,
  job-retry loop, dual-source polling, CI verification loop,
  code-review loop),
* `backend/src/mainloop/workflows/main_thread.py` (worker-result handling),
* `backend/src/mainloop/services/github_pr.py` (`generate_branch_name`),
* `backend/src/mainloop/db/postgres.py` (`update_worker_task` field-merge
  semantics).

External interactions (job results, in-app messages, forge polls, clock
reads) are modelled as scripted inputs consumed positionally, exactly in
the order the Python code awaits them; every externally visible action of
the workflow is recorded in an effect trace.  String and character
handling models the ASCII semantics of the Python string operations
involved (all inputs of interest are ASCII).  Durations are modelled in
ticks of 1/1024 second, so that the 1.5x polling backoff of the source is
exact: every duration the Python code can reach is an integer number of
ticks (the backoff halves at most ten times before hitting its cap, and
the base interval carries a factor of 2^10).
-/

namespace Mainloop

/-- Task lifecycle statuses.  The members are those referenced as
`TaskStatus.*` by `workflows/worker.py` and `workflows/main_thread.py`
(the checked-in copy of `models/workflow.py` is a stale generation that
lacks the three interactive-planning members; their string values follow
the spec section 4.3.1). -/
inductive TaskStatus
  | pending
  | planning
  | waiting_questions
  | waiting_plan_review
  | ready_to_implement
  | implementing
  | under_review
  | completed
  | failed
  | cancelled
deriving DecidableEq, Repr

/-- A pending question; only its identity matters for the claims, so it is
modelled as its rendered text. -/
abbrev Question := String

/-! ## Branch-name derivation (`services/github_pr.py`, `generate_branch_name`) -/

/-- ASCII model of the Python regex class `\w` (letters, digits, underscore). -/
def isWordChar (c : Char) : Bool := c.isAlphanum || c == '_'

/-- ASCII model of the Python regex class `\s`. -/
def isSpaceChar (c : Char) : Bool :=
  c == ' ' || c == '\t' || c == '\n' || c == '\r' || c == '\x0b' || c == '\x0c'

/-- Characters kept by `re.sub(r"[^\w\s-]", "", slug)`. -/
def keepChar (c : Char) : Bool := isWordChar c || isSpaceChar c || c == '-'

/-- `re.sub(r"[\s_]+", "-", slug)`, pointwise part: spaces and underscores
become hyphens (run collapsing is done by the following `-+` substitution,
so mapping each such character to a hyphen and then collapsing hyphen runs
is equivalent to the two Python substitutions in sequence). -/
def sepToDash (c : Char) : Char := if isSpaceChar c || c == '_' then '-' else c

/-- `re.sub(r"-+", "-", slug)`: collapse runs of hyphens to a single hyphen. -/
def dedupDashes : List Char → List Char
  | [] => []
  | [c] => [c]
  | c :: d :: cs =>
      if c == '-' && d == '-' then dedupDashes (d :: cs)
      else c :: dedupDashes (d :: cs)

/-- `slug.strip("-")`. -/
def stripDashes (l : List Char) : List Char :=
  ((l.dropWhile (· == '-')).reverse.dropWhile (· == '-')).reverse

/-- The fixed stop-word set of `generate_branch_name`. -/
def stop_words : List String :=
  ["the", "a", "an", "and", "or", "but", "in", "on", "at", "to",
   "for", "of", "with", "by", "is", "are", "was", "were"]

/-- `slug[:50].rsplit("-", 1)[0]`: take the first 50 characters, then drop
everything from the last hyphen on; if the 50-character cut contains no
hyphen it is returned unchanged. -/
def truncateAtDash (l : List Char) : List Char :=
  let t := l.take 50
  match t.reverse.dropWhile (· != '-') with
  | [] => t
  | _ :: rest => rest.reverse

/-- ASCII model of Python `str.lower()`. -/
def lowerChars (s : String) : List Char := s.toList.map Char.toLower

/-- The word list computed by `generate_branch_name` before joining:
lowercase, keep `[\w\s-]`, turn `[\s_]+` runs into hyphens, collapse `-+`,
strip hyphens, split on hyphens, drop empty words and stop words. -/
def slugWords (title : String) : List String :=
  let cs := (lowerChars title).filter keepChar
  let stripped := stripDashes (dedupDashes (cs.map sepToDash))
  ((stripped.splitOn '-').map (fun w => String.mk w)).filter
    (fun w => !(w == "") && !(stop_words.contains w))

/-- The slug part of `generate_branch_name`: first 8 words joined with
hyphens, truncated past 50 characters. -/
def slugify (title : String) : String :=
  let slug := String.intercalate "-" ((slugWords title).take 8)
  if slug.length > 50 then String.mk (truncateAtDash slug.toList) else slug

/-- The `prefix_map.get(task_type.lower(), "feature")` lookup of
`generate_branch_name`. -/
def taskTypeHead (task_type : String) : String :=
  let t := String.mk (lowerChars task_type)
  if t == "feature" then "feature"
  else if t == "bugfix" then "fix"
  else if t == "bug" then "fix"
  else if t == "fix" then "fix"
  else if t == "refactor" then "refactor"
  else if t == "docs" then "docs"
  else if t == "test" then "test"
  else if t == "chore" then "chore"
  else "feature"

/-- `generate_branch_name(issue_number, title, task_type)` from
`services/github_pr.py`. -/
def generate_branch_name (issue_number : Int) (title : String)
    (task_type : String) : String :=
  taskTypeHead task_type ++ "/" ++ toString issue_number ++ "-" ++ slugify title

/-! ### Branch-name derivation as literally worded by the claim

The claim describes the slugification as "dropping characters other than
alphanumerics/hyphens/spaces".  Taken literally, underscores are dropped
before the collapse step.  The following pipeline follows that wording;
everything else is as in the claim. -/

/-- Characters kept under the claim wording: alphanumerics, hyphens,
spaces (no underscore). -/
def keepCharClaim (c : Char) : Bool := c.isAlphanum || isSpaceChar c || c == '-'

/-- The claim-literal word list: same pipeline as the source, but with the
claim drop-set that excludes underscores. -/
def slugWordsClaim (title : String) : List String :=
  let cs := (lowerChars title).filter keepCharClaim
  let stripped := stripDashes (dedupDashes (cs.map sepToDash))
  ((stripped.splitOn '-').map (fun w => String.mk w)).filter
    (fun w => !(w == "") && !(stop_words.contains w))

/-- Branch-name derivation as literally stated by the claim. -/
def branch_name_claim_literal (issue_number : Int) (title : String)
    (task_type : String) : String :=
  let slug := String.intercalate "-" ((slugWordsClaim title).take 8)
  let slug := if slug.length > 50 then String.mk (truncateAtDash slug.toList) else slug
  taskTypeHead task_type ++ "/" ++ toString issue_number ++ "-" ++ slug

/-! ### Branch-name derivation as worded by the amended claim

The amended claim keeps underscores among the retained characters and
treats spaces, underscores and hyphens uniformly as separators whose runs
become a single hyphen; the prefix table is spelled as a lookup table.
The pipeline below follows the amended wording; its agreement with the
source embedding is proved later. -/

/-- Separators under the amended wording: whitespace, underscore, hyphen. -/
def isSepChar (c : Char) : Bool := isSpaceChar c || c == '_' || c == '-'

/-- Replace every maximal run of separators by a single hyphen, in one
pass over the characters. -/
def collapseSeps : List Char → List Char
  | [] => []
  | [c] => if isSepChar c then ['-'] else [c]
  | c :: d :: cs =>
      if isSepChar c then
        if isSepChar d then collapseSeps (d :: cs)
        else '-' :: collapseSeps (d :: cs)
      else c :: collapseSeps (d :: cs)

/-- The task-type prefix table of the amended claim, as an association
list. -/
def typeHeadTable : List (String × String) :=
  [("feature", "feature"), ("bugfix", "fix"), ("bug", "fix"), ("fix", "fix"),
   ("refactor", "refactor"), ("docs", "docs"), ("test", "test"), ("chore", "chore")]

/-- Task-type prefix lookup of the amended claim. -/
def taskTypeHeadAmended (task_type : String) : String :=
  match typeHeadTable.lookup (String.mk (lowerChars task_type)) with
  | some p => p
  | none => "feature"

/-- Word list under the amended wording. -/
def slugWordsAmended (title : String) : List String :=
  let cs := (lowerChars title).filter keepChar
  ((stripDashes (collapseSeps cs)).splitOn '-').map (fun w => String.mk w)
    |>.filter (fun w => !(w == "") && !(stop_words.contains w))

/-- Branch-name derivation as stated by the amended claim. -/
def branch_name_amended (issue_number : Int) (title : String)
    (task_type : String) : String :=
  let slug := String.intercalate "-" ((slugWordsAmended title).take 8)
  let slug := if slug.length > 50 then String.mk (truncateAtDash slug.toList) else slug
  taskTypeHeadAmended task_type ++ "/" ++ toString issue_number ++ "-" ++ slug

/-! ## Worker-result handling in the main-thread workflow
(`workflows/main_thread.py`, `handle_worker_result`) -/

/-- Inbox item kinds (`QueueItemType` in `models/workflow.py`). -/
inductive QueueItemType
  | question
  | approval
  | review
  | error
  | notification
  | plan_ready
  | code_ready
  | feedback_addressed
  | routing_suggestion
deriving DecidableEq, Repr

/-- The persistent write operations available to main-thread code.  The
content of inbox items (title, body, priority, options) is not modelled;
only which rows are written is, which is what the frame claim is about.
`updateMainThread` is the write performed by `save_main_thread`; it is
listed so that its absence from `handle_worker_result` is expressible. -/
inductive MTWrite
  | insertQueueItem (t : QueueItemType)
  | updateWorkerTask (status : TaskStatus) (error : Option String)
  | updateMainThread
deriving DecidableEq, Repr

/-- The worker-result payload fields that `handle_worker_result` reads. -/
structure WorkerResultMsg where
  status : String
  prUrl : Option String := none
  merged : Bool := false
  error : Option String := none
deriving DecidableEq, Repr

/-- `handle_worker_result(thread, payload)` from
`workflows/main_thread.py`: the sequence of persistent writes it performs,
branching on the payload status exactly as the source does.  The
`completed` branch folds the three content variants of its notification
into one inbox insert of kind `notification`, which is what they all are. -/
def handleWorkerResult (p : WorkerResultMsg) : List MTWrite :=
  if p.status == "plan_ready" then [.insertQueueItem .plan_ready]
  else if p.status == "plan_updated" then [.insertQueueItem .notification]
  else if p.status == "code_ready" then [.insertQueueItem .code_ready]
  else if p.status == "feedback_addressed" then [.insertQueueItem .feedback_addressed]
  else if p.status == "completed" then
    [.updateWorkerTask .completed none, .insertQueueItem .notification]
  else if p.status == "cancelled" then
    [.updateWorkerTask .cancelled none, .insertQueueItem .notification]
  else if p.status == "failed" then
    [.updateWorkerTask .failed p.error, .insertQueueItem .error]
  else if p.status == "needs_input" then
    [.updateWorkerTask .under_review none, .insertQueueItem .question]
  else []

/-- Does a main-thread write touch the `worker_tasks` table? -/
def touchesWorkerTaskRow : MTWrite → Bool
  | .updateWorkerTask _ _ => true
  | _ => false

/-- Does a main-thread write touch the `main_threads` table? -/
def touchesMainThreadRow : MTWrite → Bool
  | .updateMainThread => true
  | _ => false

/-! ## Durations

Durations are measured in ticks of 1/1024 second.  Every duration the
worker code manipulates is an integer number of ticks: the fixed sleeps
are whole seconds, and the polling backoff multiplies by 3/2 at most nine
times starting from 10 s = 10*2^10 ticks before its cap freezes it, so the
division below is always exact on reachable values. -/

def ticksPerSecond : Nat := 1024

/-- A whole number of seconds, in ticks. -/
def secs (n : Nat) : Nat := n * ticksPerSecond

/-- Python `min` on durations. -/
def pymin (a b : Nat) : Nat := if a ≤ b then a else b

/-! ## Worker-task rows and the update-merge semantics of the store -/

/-- Python truthiness of an optional string (`None` and `""` are falsy). -/
def truthyOptStr : Option String → Bool
  | none => false
  | some s => !(s == "")

/-- Python truthiness of an optional integer (`None` and `0` are falsy). -/
def truthyOptInt : Option Int → Bool
  | none => false
  | some n => !(n == 0)

/-- The `worker_tasks` row fields the worker workflow reads or writes
(`postgres.py`, `_row_to_worker_task`).  Time is a tick count. -/
structure TaskRow where
  id : String := "t1"
  userId : String := "u1"
  repoUrl : String := "https://github.com/o/r"
  description : String := "add a dark mode toggle"
  taskType : String := "feature"
  skipPlan : Bool := false
  createdAt : Nat := 0
  status : TaskStatus := .pending
  issueUrl : Option String := none
  issueNumber : Option Int := none
  prUrl : Option String := none
  prNumber : Option Int := none
  branchName : Option String := none
  error : Option String := none
  pendingQuestions : List Question := []
  planText : Option String := none
deriving DecidableEq, Repr

/-- One call to `update_worker_task_status` (a thin wrapper over
`db.update_worker_task`).  `none` means the argument was left at its
`None` default and the corresponding column is not touched; for
`pendingQuestions`, `some []` stores an empty value (the source comment:
empty list clears, `None` means do not update). -/
structure TaskUpdate where
  status : TaskStatus
  issueUrl : Option String := none
  issueNumber : Option Int := none
  prUrl : Option String := none
  prNumber : Option Int := none
  branchName : Option String := none
  error : Option String := none
  pendingQuestions : Option (List Question) := none
  planText : Option String := none
deriving DecidableEq, Repr

/-- The field-merge semantics of `db.update_worker_task`
(`postgres.py`): only non-`None` arguments update their column. -/
def applyTaskUpdate (r : TaskRow) (u : TaskUpdate) : TaskRow :=
  { r with
    status := u.status
    issueUrl := match u.issueUrl with | some v => some v | none => r.issueUrl
    issueNumber := match u.issueNumber with | some v => some v | none => r.issueNumber
    prUrl := match u.prUrl with | some v => some v | none => r.prUrl
    prNumber := match u.prNumber with | some v => some v | none => r.prNumber
    branchName := match u.branchName with | some v => some v | none => r.branchName
    error := match u.error with | some v => some v | none => r.error
    pendingQuestions :=
      match u.pendingQuestions with | some qs => qs | none => r.pendingQuestions
    planText := match u.planText with | some v => some v | none => r.planText }

/-! ## The worker workflow effect vocabulary

Every externally visible action of `worker_task_workflow` (and of the
helpers it calls) is recorded as one of these effects, in program
order. -/

/-- The `mode` argument of `create_worker_job`. -/
inductive JobMode
  | plan
  | implement
  | feedback
  | fix
deriving DecidableEq, Repr

/-- Effects of the worker workflow.  Durations are tick counts. -/
inductive Eff
  | setupNamespace
  | updateTask (u : TaskUpdate)
  | createIssue
  | comment (body : String)
  | closeIssue
  | updateIssueBody
  | updateIssueLabels (labels : List String)
  | postQuestions (qs : List Question)
  | postPlan
  | spawn (m : JobMode) (iteration : Nat) (feedback : Option String)
  | recvTopic (topic : String) (timeout : Nat)
  | checkIssueAnswers
  | checkReactions
  | checkIssueApproval
  | checkStatus (pr : Option Int)
  | getFailureLogs
  | prPoll
  | prCommentsCheck (since : Nat)
  | getFeedback
  | sleepFor (ticks : Nat)
  | notify (status : String)
  | cleanup
deriving DecidableEq, Repr

/-- The effects that launch an executor job. -/
def isSpawn : Eff → Bool
  | .spawn _ _ _ => true
  | _ => false

/-- The effects that launch an executor job of a given mode. -/
def isSpawnOf (m : JobMode) : Eff → Bool
  | .spawn m2 _ _ => m == m2
  | _ => false

/-- Project the task updates out of a trace. -/
def updatesOf (tr : List Eff) : List TaskUpdate :=
  tr.filterMap fun e => match e with | .updateTask u => some u | _ => none

/-- The successive persisted row states produced by a trace, starting from
an initial row (the initial row itself included). -/
def dbStates (init : TaskRow) (tr : List Eff) : List TaskRow :=
  (updatesOf tr).scanl applyTaskUpdate init

/-- Sleep durations of a trace, in order. -/
def sleepsOf (tr : List Eff) : List Nat :=
  tr.filterMap fun e => match e with | .sleepFor q => some q | _ => none

/-- Comments posted by a trace, in order. -/
def commentsOf (tr : List Eff) : List String :=
  tr.filterMap fun e => match e with | .comment b => some b | _ => none

/-- Number of executor-job launches in a trace. -/
def countSpawns (tr : List Eff) : Nat := tr.countP isSpawn

/-- The `since` watermarks of the PR comment checks of a trace, in order. -/
def sincesOf (tr : List Eff) : List Nat :=
  tr.filterMap fun e => match e with | .prCommentsCheck s => some s | _ => none

/-- Timeouts of the `recv` calls of a trace, in order. -/
def recvTimeoutsOf (tr : List Eff) : List Nat :=
  tr.filterMap fun e => match e with | .recvTopic _ q => some q | _ => none

/-! ## Job results and the retry loop (`run_job_with_retry`) -/

/-- A message on the `job_result` topic, with the payload fields the
worker reads.  `status` is the verbatim status string of the callback. -/
structure JobMsg where
  status : String
  planText : Option String := none
  questions : List Question := []
  prUrl : Option String := none
  error : Option String := none
deriving DecidableEq, Repr

/-- A successful job-result message carrying the given payload. -/
def jobOk (planText : Option String := none) (questions : List Question := [])
    (prUrl : Option String := none) : JobMsg :=
  { status := "completed", planText := planText, questions := questions, prUrl := prUrl }

/-- Consume the next scripted answer of an await; an exhausted script
behaves like a timeout (`none`). -/
def take1 {α : Type} : List (Option α) → Option α × List (Option α)
  | [] => (none, [])
  | x :: xs => (x, xs)

/-- Consume the next scripted value, with a default for exhaustion. -/
def takeD {α : Type} (d : α) : List α → α × List α
  | [] => (d, [])
  | x :: xs => (x, xs)

def MAX_JOB_RETRIES : Nat := 5

/-- 1 hour per job attempt, in ticks. -/
def JOB_TIMEOUT : Nat := secs 3600

/-- `run_job_with_retry(spawn_fn, job_name)` from `workflows/worker.py`:
spawn the job, wait (1 h) for a `job_result` message, and on timeout or a
`failed` status retry with backoff `2^attempt` seconds after attempts
1..4; after the fifth failed attempt, raise.  `sp` is the spawn effect the
bound `spawn_fn` produces; `attemptsLeft` starts at `MAX_JOB_RETRIES` and
`attempt` at 1.  Returns the trace, the unconsumed script, and either the
successful message or the raised error text. -/
def runJobRetryAux (sp : Eff) (jobName : String) :
    Nat → Nat → String → List (Option JobMsg) →
      List Eff × List (Option JobMsg) × Except String JobMsg
  | 0, _, lastErr, jobs =>
      ([], jobs, .error (jobName ++ " failed after 5 attempts: " ++ lastErr))
  | attemptsLeft + 1, attempt, _, jobs =>
      let r := take1 jobs
      let failWith := fun (e : String) =>
        if attemptsLeft == 0 then
          ([sp, Eff.recvTopic "job_result" JOB_TIMEOUT], r.2,
           Except.error (jobName ++ " failed after 5 attempts: " ++ e))
        else
          let k := runJobRetryAux sp jobName attemptsLeft (attempt + 1) e r.2
          ([sp, Eff.recvTopic "job_result" JOB_TIMEOUT,
            Eff.sleepFor (secs (2 ^ attempt))] ++ k.1, k.2.1, k.2.2)
      match r.1 with
      | none => failWith ("Timed out waiting for " ++ jobName ++ " to complete")
      | some m =>
          if m.status == "failed" then
            failWith (m.error.getD (jobName ++ " failed"))
          else ([sp, Eff.recvTopic "job_result" JOB_TIMEOUT], r.2, .ok m)

/-- `run_job_with_retry` entry point: five attempts, starting at attempt 1. -/
def runJobRetry (sp : Eff) (jobName : String) (jobs : List (Option JobMsg)) :
    List Eff × List (Option JobMsg) × Except String JobMsg :=
  runJobRetryAux sp jobName MAX_JOB_RETRIES 1 "" jobs

/-! ## Dual-source polling (question wait and plan-review wait) -/

/-- Initial poll interval: 10 s. -/
def POLL_INITIAL : Nat := secs 10

/-- Poll interval cap: 300 s. -/
def MAX_POLL_INTERVAL : Nat := secs 300

/-- Total user-wait budget: 24 h. -/
def PLAN_REVIEW_TIMEOUT : Nat := secs 86400

/-- `poll_interval = min(poll_interval * 1.5, max_poll_interval)`.  On the
reachable interval values the multiplication by 3/2 is exact (see the
module comment on ticks). -/
def pollStep (i : Nat) : Nat := pymin (i * 3 / 2) MAX_POLL_INTERVAL

/-- Enough loop iterations for the 24 h budget to be reached first: each
unsuccessful iteration adds at least 10 s to the accumulated wait. -/
def POLL_FUEL : Nat := 8641

/-- The poll-interval schedule: the interval used by the n-th iteration of
a dual-source wait, starting at 10 s and stepped by `pollStep`. -/
def pollSched : Nat → Nat
  | 0 => POLL_INITIAL
  | n + 1 => pollStep (pollSched n)

/-- A message on the `question_response` topic. -/
structure QMsg where
  action : String
  answers : List (String × String) := []
deriving DecidableEq, Repr

/-- Answers harvested from a forge comment. -/
abbrev GhAnswers := List (String × String)

/-- Outcome of the question wait. -/
inductive QOut
  | ui (m : QMsg)
  | github (a : GhAnswers)
  | timedOut
  | fuelOut
deriving DecidableEq, Repr

/-- Result of the question wait. -/
structure QPollRes where
  trace : List Eff
  qRecv : List (Option QMsg)
  qForge : List (Option GhAnswers)
  out : QOut
deriving Repr

/-- The question-wait loop of `worker_task_workflow` (worker.py, the
`waiting_questions` poll): while the accumulated wait is below 24 h, first
`recv` the in-app topic with the current interval as timeout and use an
arriving message; otherwise query the issue comments for answers; on an
unsuccessful iteration add the interval to the accumulated wait and grow
the interval by 1.5x up to 300 s.  `qr` scripts the `recv` outcomes per
iteration, `qf` the comment-query outcomes. -/
def qPollAux : Nat → Nat → Nat → List (Option QMsg) → List (Option GhAnswers) → QPollRes
  | 0, _, totalWait, qr, qf =>
      if totalWait < PLAN_REVIEW_TIMEOUT then ⟨[], qr, qf, .fuelOut⟩
      else ⟨[], qr, qf, .timedOut⟩
  | fuel + 1, interval, totalWait, qr, qf =>
      if totalWait < PLAN_REVIEW_TIMEOUT then
        let r := take1 qr
        match r.1 with
        | some m => ⟨[.recvTopic "question_response" interval], r.2, qf, .ui m⟩
        | none =>
            let g := take1 qf
            match g.1 with
            | some a =>
                ⟨[.recvTopic "question_response" interval, .checkIssueAnswers],
                 r.2, g.2, .github a⟩
            | none =>
                let k := qPollAux fuel (pollStep interval) (totalWait + interval) r.2 g.2
                ⟨[.recvTopic "question_response" interval, .checkIssueAnswers] ++ k.trace,
                 k.qRecv, k.qForge, k.out⟩
      else ⟨[], qr, qf, .timedOut⟩

/-- Entry point of the question wait: interval 10 s, empty accumulator. -/
def qPoll (qr : List (Option QMsg)) (qf : List (Option GhAnswers)) : QPollRes :=
  qPollAux POLL_FUEL POLL_INITIAL 0 qr qf

/-- A message on the `plan_response` topic (`text` defaults to the empty
string, as `response.get("text", "")` does). -/
structure PMsg where
  action : String
  text : String := ""
deriving DecidableEq, Repr

/-- Outcome of the plan-review wait. -/
inductive POut
  | ui (m : PMsg)
  | ghReaction
  | gh (action : String) (text : Option String)
  | timedOut
  | fuelOut
deriving DecidableEq, Repr

/-- Result of the plan-review wait. -/
structure PPollRes where
  trace : List Eff
  pRecv : List (Option PMsg)
  pReact : List Bool
  pForge : List (Option (String × Option String))
  out : POut
deriving Repr

/-- The plan-review wait loop of `worker_task_workflow`: while the
accumulated wait is below 24 h, first `recv` the in-app `plan_response`
topic; otherwise, when a plan comment exists (`cid` nonzero), check its
reactions for an approval; otherwise check new issue comments for the
approve/revise grammar; back off as in the question wait.  `re` scripts
reaction checks and `fo` comment checks. -/
def pPollAux (cid : Int) :
    Nat → Nat → Nat → List (Option PMsg) → List Bool →
      List (Option (String × Option String)) → PPollRes
  | 0, _, totalWait, pr, re, fo =>
      if totalWait < PLAN_REVIEW_TIMEOUT then ⟨[], pr, re, fo, .fuelOut⟩
      else ⟨[], pr, re, fo, .timedOut⟩
  | fuel + 1, interval, totalWait, pr, re, fo =>
      if totalWait < PLAN_REVIEW_TIMEOUT then
        let r := take1 pr
        match r.1 with
        | some m => ⟨[.recvTopic "plan_response" interval], r.2, re, fo, .ui m⟩
        | none =>
            if cid != 0 then
              let hR := takeD false re
              if hR.1 then
                ⟨[.recvTopic "plan_response" interval, .checkReactions],
                 r.2, hR.2, fo, .ghReaction⟩
              else
                let g := take1 fo
                match g.1 with
                | some at_ =>
                    ⟨[.recvTopic "plan_response" interval, .checkReactions,
                      .checkIssueApproval], r.2, hR.2, g.2, .gh at_.1 at_.2⟩
                | none =>
                    let k := pPollAux cid fuel (pollStep interval) (totalWait + interval)
                      r.2 hR.2 g.2
                    ⟨[.recvTopic "plan_response" interval, .checkReactions,
                      .checkIssueApproval] ++ k.trace, k.pRecv, k.pReact, k.pForge, k.out⟩
            else
              let g := take1 fo
              match g.1 with
              | some at_ =>
                  ⟨[.recvTopic "plan_response" interval, .checkIssueApproval],
                   r.2, re, g.2, .gh at_.1 at_.2⟩
              | none =>
                  let k := pPollAux cid fuel (pollStep interval) (totalWait + interval)
                    r.2 re g.2
                  ⟨[.recvTopic "plan_response" interval, .checkIssueApproval] ++ k.trace,
                   k.pRecv, k.pReact, k.pForge, k.out⟩
      else ⟨[], pr, re, fo, .timedOut⟩

/-- Entry point of the plan-review wait. -/
def pPoll (cid : Int) (pr : List (Option PMsg)) (re : List Bool)
    (fo : List (Option (String × Option String))) : PPollRes :=
  pPollAux cid POLL_FUEL POLL_INITIAL 0 pr re fo

/-! ## CI verification loop (worker.py, phase 2.5) -/

/-- The combined check status returned by `get_check_status_step`. -/
inductive CheckSt
  | success
  | failure
  | pending
deriving DecidableEq, Repr

def MAX_CI_ITERATIONS : Nat := 5

/-- 30 s, in ticks. -/
def PR_POLL_INTERVAL : Nat := secs 30

/-- Outcome of the CI loop. -/
inductive CIOut
  | passed
  | cap
  | err (e : String)
  | envOut
deriving DecidableEq, Repr

/-- Result of the CI loop. `rounds` is the final `ci_iteration`, that is
the number of CI failures observed (each of which launched a fix-job
round). -/
structure CIRes where
  trace : List Eff
  ciLogs : List String
  jobs : List (Option JobMsg)
  rounds : Nat
  out : CIOut
deriving Repr

/-- The CI verification loop: while `ci_iteration < MAX_CI_ITERATIONS`,
sleep 30 s and poll the combined check status; success exits the loop;
pending continues; failure increments the counter, notifies, fetches
failure logs and runs a fix job (with the retry policy), then sleeps a
further 30 s.  Leaving the loop with the counter at the cap raises.  The
script `checks` supplies one status per poll; running out of script ends
the model run (`envOut`). -/
def ciLoopAux (pr : Option Int) :
    List CheckSt → List String → List (Option JobMsg) → Nat → CIRes
  | [], logs, jobs, it =>
      if it < MAX_CI_ITERATIONS then ⟨[], logs, jobs, it, .envOut⟩
      else ⟨[], logs, jobs, it, .cap⟩
  | c :: cs, logs, jobs, it =>
      if it < MAX_CI_ITERATIONS then
        match c with
        | .success =>
            ⟨[.sleepFor PR_POLL_INTERVAL, .checkStatus pr], logs, jobs, it, .passed⟩
        | .pending =>
            let k := ciLoopAux pr cs logs jobs it
            ⟨[.sleepFor PR_POLL_INTERVAL, .checkStatus pr] ++ k.trace,
             k.ciLogs, k.jobs, k.rounds, k.out⟩
        | .failure =>
            let lg := takeD "" logs
            let rj := runJobRetry (.spawn .fix (it + 1) (some lg.1))
              ("fix job (CI iteration " ++ toString (it + 1) ++ ")") jobs
            let head := [Eff.sleepFor PR_POLL_INTERVAL, Eff.checkStatus pr,
                         Eff.notify "ci_failed", Eff.getFailureLogs]
            match rj.2.2 with
            | .error e => ⟨head ++ rj.1, lg.2, rj.2.1, it + 1, .err e⟩
            | .ok _ =>
                let k := ciLoopAux pr cs lg.2 rj.2.1 (it + 1)
                ⟨head ++ rj.1 ++ [Eff.sleepFor (secs 30)] ++ k.trace,
                 k.ciLogs, k.jobs, k.rounds, k.out⟩
      else ⟨[], logs, jobs, it, .cap⟩

/-! ## Code-review loop (worker.py phase 3, and `_run_code_review_loop`)

The loop body of the resume helper `_run_code_review_loop` (lines 716-769)
and of the mainline phase 3 (lines 1362-1415) is the same, line for line;
the two differ only in how the surrounding function reacts to exceptions
and what it returns, which the two wrappers below reproduce. -/

/-- PR status as read from `check_pr_status`. -/
inductive PrSt
  | merged
  | closed
  | openPr
  | notFound
deriving DecidableEq, Repr

/-- Outcome of the code-review loop body. -/
inductive RevOut
  | merged
  | closedNoMerge
  | prGone
  | err (e : String)
  | envOut
deriving DecidableEq, Repr

/-- Result of the code-review loop. -/
structure RevRes where
  trace : List Eff
  prPolls : List PrSt
  prNew : List Bool
  prFeedback : List String
  jobs : List (Option JobMsg)
  nows : List Nat
  out : RevOut
deriving Repr

/-- The code-review loop: every iteration sleeps 30 s and polls the PR;
merged completes the task, closed-without-merge cancels it, a vanished PR
exits; otherwise new comments since `lastCheck` are fetched, and non-empty
actionable feedback triggers a feedback job (status `implementing` while
it runs, back to `under_review` after), after which `lastCheck` is reset
to the current time.  Scripts: `prPolls` one PR status per iteration,
`prNew` whether new comments exist, `prFeedback` the formatted feedback,
`nows` the clock readings. -/
def reviewLoopAux (prUrl : Option String) (prNumber : Option Int) :
    List PrSt → List Bool → List String → List (Option JobMsg) → List Nat →
      Nat → Nat → RevRes
  | [], pn, pf, jobs, nows, _, _ => ⟨[], [], pn, pf, jobs, nows, .envOut⟩
  | p :: ps, pn, pf, jobs, nows, lastCheck, fi =>
      let head := [Eff.sleepFor PR_POLL_INTERVAL, Eff.prPoll]
      match p with
      | .notFound => ⟨head, ps, pn, pf, jobs, nows, .prGone⟩
      | .merged =>
          ⟨head ++ [Eff.updateTask { status := .completed }, Eff.notify "completed"],
           ps, pn, pf, jobs, nows, .merged⟩
      | .closed =>
          ⟨head ++ [Eff.updateTask { status := .cancelled }, Eff.notify "cancelled"],
           ps, pn, pf, jobs, nows, .closedNoMerge⟩
      | .openPr =>
          let hasNew := takeD false pn
          let head := head ++ [Eff.prCommentsCheck lastCheck]
          if hasNew.1 then
            let fb := takeD "" pf
            let head := head ++ [Eff.getFeedback]
            if fb.1 == "" then
              let nw := takeD 0 nows
              let k := reviewLoopAux prUrl prNumber ps hasNew.2 fb.2 jobs nw.2 nw.1 fi
              ⟨head ++ k.trace, k.prPolls, k.prNew, k.prFeedback, k.jobs, k.nows, k.out⟩
            else
              let rj := runJobRetry (.spawn .feedback (fi + 1) (some fb.1))
                ("feedback job (iteration " ++ toString (fi + 1) ++ ")") jobs
              let head := head ++ [Eff.updateTask { status := .implementing }] ++ rj.1
              match rj.2.2 with
              | .error e =>
                  ⟨head, ps, hasNew.2, fb.2, rj.2.1, nows, .err e⟩
              | .ok _ =>
                  let head := head ++
                    [Eff.updateTask { status := .under_review, prUrl := prUrl,
                                      prNumber := prNumber },
                     Eff.notify "feedback_addressed"]
                  let nw := takeD 0 nows
                  let k := reviewLoopAux prUrl prNumber ps hasNew.2 fb.2 rj.2.1 nw.2
                    nw.1 (fi + 1)
                  ⟨head ++ k.trace, k.prPolls, k.prNew, k.prFeedback, k.jobs, k.nows, k.out⟩
          else
            let nw := takeD 0 nows
            let k := reviewLoopAux prUrl prNumber ps hasNew.2 pf jobs nw.2 nw.1 fi
            ⟨head ++ k.trace, k.prPolls, k.prNew, k.prFeedback, k.jobs, k.nows, k.out⟩

/-! ## Scripted environment for a whole workflow run -/

/-- A message on the `start_implementation` topic. -/
structure IMsg where
  action : String
deriving DecidableEq, Repr

/-- All scripted external responses of one workflow run, consumed
positionally in the order the Python code awaits them. -/
structure Env where
  issueCreate : Option (Int × String) := some (1, "https://github.com/o/r/issues/1")
  planCommentIds : List Int := []
  jobs : List (Option JobMsg) := []
  qRecv : List (Option QMsg) := []
  qForge : List (Option GhAnswers) := []
  pRecv : List (Option PMsg) := []
  pReact : List Bool := []
  pForge : List (Option (String × Option String)) := []
  startImpl : Option IMsg := none
  checks : List CheckSt := []
  ciLogs : List String := []
  prPolls : List PrSt := []
  prNew : List Bool := []
  prFeedback : List String := []
  nows : List Nat := []
deriving Repr

/-! ## Plan-response classification and the planning loop -/

/-- The approval test of worker.py line 1143: the action equals
`"approve"` verbatim, or its lowercase form is one of `approve`, `lgtm`,
`looks good`. -/
def isPlanApproval (action : String) : Bool :=
  action == "approve" ||
    (let la := String.mk (lowerChars action)
     la == "approve" || la == "lgtm" || la == "looks good")

/-- What the plan-review branch does with a received response. -/
inductive PlanDecision
  | approved
  | cancelled
  | revise (feedback : String)
deriving DecidableEq, Repr

/-- The three-way dispatch on a plan response (worker.py lines
1143-1182): approval, exact `"cancel"`, and everything else as a revision
whose feedback is the text, or the action itself when the text is empty
(`response_text or response_action`). -/
def planResponseDispatch (action text : String) : PlanDecision :=
  if isPlanApproval action then .approved
  else if action == "cancel" then .cancelled
  else .revise (if text == "" then action else text)

/-- `"\n".join(f"- {k}: {v}" ...)` over accumulated answers. -/
def formatAnswers (ua : List (String × String)) : String :=
  String.intercalate "\n" (ua.map fun kv => "- " ++ kv.1 ++ ": " ++ kv.2)

/-- The feedback-context construction at the top of the plan loop
(worker.py lines 895-905): the previous plan text when past the first
iteration and truthy, extended by the formatted user answers when any
are present. -/
def buildFeedbackContext (it : Nat) (planTextPrev : Option String)
    (ua : List (String × String)) : Option String :=
  let fc : Option String :=
    if 1 < it && truthyOptStr planTextPrev then planTextPrev else none
  if ua == [] then fc
  else some (
    match fc with
    | some f =>
        if f == "" then "User answered your questions:\n" ++ formatAnswers ua
        else f ++ "\n\nUser answered your questions:\n" ++ formatAnswers ua
    | none => "User answered your questions:\n" ++ formatAnswers ua)

/-- Outcome of the planning loop. -/
inductive PlanOut
  | approved (plan : String)
  | cancelled
  | raised (e : String)
deriving DecidableEq, Repr

/-- Result of the planning loop. -/
structure PlanRes where
  trace : List Eff
  env : Env
  out : PlanOut
deriving Repr

/-- The plan-job loop of `worker_task_workflow` (worker.py lines
892-1182), one fuel unit per `while True` iteration, iteration counter
`it` starting at 1.  Each round builds the feedback context, runs the plan
job with retry, and either enters the question sub-phase (questions
returned) or the plan-review sub-phase; revisions re-enter the loop with
the feedback as the previous plan text and cleared answers. -/
def planLoopAux : Nat → Nat → Option String → List (String × String) → Env → PlanRes
  | 0, _, _, _, env => ⟨[], env, .raised "model fuel exhausted in plan loop"⟩
  | fuel + 1, it, planTextPrev, userAnswers, env =>
      let fc := buildFeedbackContext it planTextPrev userAnswers
      let rj := runJobRetry (.spawn .plan it fc)
        ("plan job (iteration " ++ toString it ++ ")") env.jobs
      let env := { env with jobs := rj.2.1 }
      match rj.2.2 with
      | .error e => ⟨rj.1, env, .raised e⟩
      | .ok m =>
          if !(truthyOptStr m.planText) then
            ⟨rj.1, env, .raised "Plan job did not return plan content"⟩
          else
            let planText := m.planText.getD ""
            if m.questions == [] then
              -- plan-review sub-phase
              let cidp := takeD 0 env.planCommentIds
              let cid := cidp.1
              let env := { env with planCommentIds := cidp.2 }
              let head := rj.1 ++
                [Eff.updateIssueBody, Eff.postPlan,
                 Eff.updateTask { status := .waiting_plan_review, planText := some planText },
                 Eff.notify "plan_review"]
              let pp := pPoll cid env.pRecv env.pReact env.pForge
              let env := { env with pRecv := pp.pRecv, pReact := pp.pReact,
                                    pForge := pp.pForge }
              let head := head ++ pp.trace
              let parsed : Option (String × String × String) :=
                match pp.out with
                | .ui mp => some (mp.action, mp.text, "ui")
                | .ghReaction => some ("approve", "", "github_reaction")
                | .gh a t => some (a, t.getD "", "github")
                | .timedOut => none
                | .fuelOut => none
              match parsed with
              | none => ⟨head, env, .raised "Plan review timed out after 24 hours"⟩
              | some (action, text, src) =>
                  match planResponseDispatch action text with
                  | .approved =>
                      let tr := head ++
                        (if src == "github" || src == "github_reaction" then
                          [Eff.comment "✅ Got it! Plan approved."]
                        else [])
                      ⟨tr, env, .approved planText⟩
                  | .cancelled =>
                      ⟨head ++
                        [Eff.updateTask { status := .cancelled },
                         Eff.comment "❌ Plan cancelled by user.",
                         Eff.closeIssue, Eff.notify "cancelled"],
                       env, .cancelled⟩
                  | .revise fb =>
                      let ack :=
                        if src == "github" then
                          Eff.comment "📝 Got your feedback. Regenerating plan..."
                        else
                          Eff.comment ("📝 **Revision requested:**\n> " ++ fb ++
                            "\n\nRegenerating plan...")
                      let k := planLoopAux fuel (it + 1) (some fb) [] env
                      ⟨head ++ [ack] ++ k.trace, k.env, k.out⟩
            else
              -- question sub-phase
              let head := rj.1 ++
                [Eff.updateTask { status := .waiting_questions,
                                  pendingQuestions := some m.questions,
                                  planText := some planText },
                 Eff.postQuestions m.questions,
                 Eff.notify "questions"]
              let qp := qPoll env.qRecv env.qForge
              let env := { env with qRecv := qp.qRecv, qForge := qp.qForge }
              let head := head ++ qp.trace
              let parsed : Option (List (String × String) × String) :=
                match qp.out with
                | .ui mq => if mq.action == "cancel" then none else some (mq.answers, "ui")
                | .github a => some (a, "github")
                | .timedOut => none
                | .fuelOut => none
              match qp.out with
              | .timedOut =>
                  ⟨head, env, .raised "Question response timed out after 24 hours"⟩
              | .fuelOut =>
                  ⟨head, env, .raised "Question response timed out after 24 hours"⟩
              | _ =>
                  match parsed with
                  | none =>
                      -- an in-app cancel during the question wait
                      ⟨head ++
                        [Eff.updateTask { status := .cancelled },
                         Eff.comment "❌ Task cancelled by user.",
                         Eff.closeIssue, Eff.notify "cancelled"],
                       env, .cancelled⟩
                  | some (answers, src) =>
                      let head := head ++
                        [Eff.updateIssueBody,
                         (if src == "github" then
                            Eff.comment "✅ Got your answers! Generating implementation plan..."
                          else
                            Eff.comment "✅ Requirements gathered. Generating implementation plan..."),
                         Eff.updateTask { status := .planning, pendingQuestions := some [] }]
                      let k := planLoopAux fuel (it + 1) (some planText) answers env
                      ⟨head ++ k.trace, k.env, k.out⟩

/-! ## Phase wrappers and the whole workflow -/

/-- Python `s[:50]`. -/
def pySlice50 (s : String) : String := String.mk (s.toList.take 50)

/-- Digits-only parse of Python `int(...)` (sign handling for a leading
minus; anything else raises). -/
def pyDigits : List Char → Option Nat
  | [] => none
  | l =>
      if l.all (fun c => c.isDigit) then
        some (l.foldl (fun a c => a * 10 + (c.toNat - 48)) 0)
      else none

/-- Python `int(s)` on a string, `none` when it raises. -/
def pyInt (l : List Char) : Option Int :=
  match l with
  | '-' :: rest => (pyDigits rest).map fun n => -(n : Int)
  | _ => (pyDigits l).map fun n => (n : Int)

/-- `int(pr_url.split("/")[-1])`: the trailing path segment of the URL
parsed as an integer; no forge-URL shape is checked. -/
def parseTrailingInt (u : String) : Option Int :=
  match (u.toList.splitOn '/').getLast? with
  | none => none
  | some seg => pyInt seg

/-- Outcome of the planning phase as seen by the rest of the workflow. -/
inductive PhaseOut
  | proceed (issueNum : Int) (issueUrl : String) (branch : String) (plan : String)
  | finished (status : String)
  | raised (e : String)
deriving Repr

/-- Result of the planning phase. -/
structure PhaseRes where
  trace : List Eff
  env : Env
  out : PhaseOut
deriving Repr

/-- Phase 1 of `worker_task_workflow` (lines 852-1254): set status
`planning`, create the issue, run the plan loop; on approval label the
issue, derive the branch name from `(issue_number, description[:50],
task_type)`, set `ready_to_implement` and wait (24 h) for the
`start_implementation` message. -/
def planningPhase (task : TaskRow) (env : Env) (fuel : Nat) : PhaseRes :=
  let head := [Eff.updateTask { status := .planning }]
  match env.issueCreate with
  | none => ⟨head ++ [Eff.createIssue], env, .raised "Failed to create GitHub issue"⟩
  | some (inum, iurl) =>
      let head := head ++
        [Eff.createIssue,
         Eff.updateTask { status := .planning, issueUrl := some iurl,
                          issueNumber := some inum },
         Eff.comment "🤖 Starting to explore the codebase and gather requirements..."]
      let pl := planLoopAux fuel 1 none [] env
      let tr := head ++ pl.trace
      match pl.out with
      | .cancelled => ⟨tr, pl.env, .finished "cancelled"⟩
      | .raised e => ⟨tr, pl.env, .raised e⟩
      | .approved plan =>
          let branch := generate_branch_name inum (pySlice50 task.description) task.taskType
          let tr := tr ++
            [Eff.comment "✅ **Plan approved!** Ready to start implementation when triggered.",
             Eff.updateIssueLabels ["mainloop-plan", "approved"],
             Eff.updateTask { status := .ready_to_implement, issueUrl := some iurl,
                              issueNumber := some inum, branchName := some branch,
                              planText := some plan },
             Eff.notify "ready_to_implement",
             Eff.recvTopic "start_implementation" PLAN_REVIEW_TIMEOUT]
          match pl.env.startImpl with
          | none => ⟨tr, pl.env, .raised "Implementation trigger timed out after 24 hours"⟩
          | some im =>
              if im.action == "cancel" then
                ⟨tr ++
                  [Eff.updateTask { status := .cancelled },
                   Eff.comment "❌ Implementation cancelled by user.",
                   Eff.closeIssue, Eff.notify "cancelled"],
                 pl.env, .finished "cancelled"⟩
              else
                ⟨tr ++ [Eff.comment "🚀 **Starting implementation...**"], pl.env,
                 .proceed inum iurl branch plan⟩

/-- Outcome of the part of the workflow inside the big `try`. -/
inductive MainOut
  | finished (status : String)
  | raised (e : String)
deriving DecidableEq, Repr

/-- Result of the implementation + CI + review phases. -/
structure StepRes where
  trace : List Eff
  env : Env
  out : MainOut
deriving Repr

/-- Phases 2, 2.5 and 3 of `worker_task_workflow` (lines 1256-1417): set
`implementing` and run the implement job; only in skip-plan mode extract
the PR url/number from the job result (a missing PR URL completes the
task; the number is the trailing URL path segment); then the CI
verification loop against the local `pr_number` (which stays `None` when
planning was not skipped), then `under_review` with the local PR fields
and the code-review loop with `last_check = now`. -/
def implementPhase (task : TaskRow) (env : Env) (issueNum : Option Int)
    (_branch : Option String) : StepRes :=
  let head := [Eff.updateTask { status := .implementing }]
  let jobName :=
    if task.skipPlan then "implement job (skip plan)"
    else "implement job (issue #" ++
      (match issueNum with | some n => toString n | none => "None") ++ ")"
  let rj := runJobRetry (.spawn .implement 0 none) jobName env.jobs
  let env := { env with jobs := rj.2.1 }
  let head := head ++ rj.1
  match rj.2.2 with
  | .error e => ⟨head, env, .raised e⟩
  | .ok m =>
      let afterExtract : Option (Option String × Option Int) ⊕ StepRes :=
        if task.skipPlan then
          if !(truthyOptStr m.prUrl) then
            Sum.inr ⟨head ++ [Eff.notify "completed"], env, .finished "completed"⟩
          else
            match parseTrailingInt (m.prUrl.getD "") with
            | none =>
                Sum.inr ⟨head, env,
                  .raised "invalid literal for int() with base 10"⟩
            | some n => Sum.inl (some (m.prUrl, some n))
        else Sum.inl (some (none, none))
      match afterExtract with
      | Sum.inr r => r
      | Sum.inl info =>
          let prUrlLoc := (info.getD (none, none)).1
          let prNumLoc := (info.getD (none, none)).2
          let ci := ciLoopAux prNumLoc env.checks env.ciLogs env.jobs 0
          let env := { env with checks := [], ciLogs := ci.ciLogs, jobs := ci.jobs }
          let head := head ++ ci.trace
          match ci.out with
          | .envOut => ⟨head, env, .finished "model_env_exhausted"⟩
          | .err e => ⟨head, env, .raised e⟩
          | .cap =>
              ⟨head, env, .raised "CI checks still failing after 5 fix attempts"⟩
          | .passed =>
              let head := head ++
                [Eff.updateTask { status := .under_review, prUrl := prUrlLoc,
                                  prNumber := prNumLoc },
                 Eff.notify "code_ready"]
              let nw := takeD 0 env.nows
              let rv := reviewLoopAux prUrlLoc prNumLoc env.prPolls env.prNew
                env.prFeedback env.jobs nw.2 nw.1 0
              let env := { env with prPolls := rv.prPolls, prNew := rv.prNew,
                                    prFeedback := rv.prFeedback, jobs := rv.jobs,
                                    nows := rv.nows }
              let head := head ++ rv.trace
              match rv.out with
              | .err e => ⟨head, env, .raised e⟩
              | .envOut => ⟨head, env, .finished "model_env_exhausted"⟩
              | _ =>
                  -- merged, closed-without-merge and vanished PR all fall
                  -- through to the final `return status completed` (1417)
                  ⟨head, env, .finished "completed"⟩

/-- Result of a whole workflow run. -/
structure RunRes where
  trace : List Eff
  env : Env
  status : String
deriving Repr

/-- The failure handler of the big `try` (lines 1419-1426): mark the task
failed with the error text and emit a failed worker-result. -/
def failTrace (e : String) : List Eff :=
  [Eff.updateTask { status := .failed, error := some e }, Eff.notify "failed"]

/-- `worker_task_workflow(task_id)` (lines 791-1444) on a loaded task row:
when the row has a truthy `pr_url` and a truthy `pr_number`, provision the
sandbox, set `under_review` with those fields and run the code-review loop
with `task.created_at` as the watermark (the resume helper catches errors
and cleans up itself); otherwise provision the sandbox and run planning
(unless `skip_plan`) then implementation inside a `try` whose handler
fails the task and whose `finally` tears the sandbox down. -/
def workerRun (task : TaskRow) (env : Env) (fuel : Nat) : RunRes :=
  if truthyOptStr task.prUrl && truthyOptInt task.prNumber then
    let head := [Eff.setupNamespace,
                 Eff.updateTask { status := .under_review, prUrl := task.prUrl,
                                  prNumber := task.prNumber }]
    let rv := reviewLoopAux task.prUrl task.prNumber env.prPolls env.prNew
      env.prFeedback env.jobs env.nows task.createdAt 0
    let env := { env with prPolls := rv.prPolls, prNew := rv.prNew,
                          prFeedback := rv.prFeedback, jobs := rv.jobs,
                          nows := rv.nows }
    let tr := head ++ rv.trace
    match rv.out with
    | .err e => ⟨tr ++ failTrace e ++ [Eff.cleanup], env, "failed"⟩
    | .merged => ⟨tr ++ [Eff.cleanup], env, "completed"⟩
    | .closedNoMerge => ⟨tr ++ [Eff.cleanup], env, "cancelled"⟩
    | .prGone => ⟨tr ++ [Eff.cleanup], env, "completed"⟩
    | .envOut => ⟨tr ++ [Eff.cleanup], env, "model_env_exhausted"⟩
  else
    let head := [Eff.setupNamespace]
    if task.skipPlan then
      let st := implementPhase task env none none
      match st.out with
      | .finished s => ⟨head ++ st.trace ++ [Eff.cleanup], st.env, s⟩
      | .raised e => ⟨head ++ st.trace ++ failTrace e ++ [Eff.cleanup], st.env, "failed"⟩
    else
      let ph := planningPhase task env fuel
      match ph.out with
      | .finished s => ⟨head ++ ph.trace ++ [Eff.cleanup], ph.env, s⟩
      | .raised e => ⟨head ++ ph.trace ++ failTrace e ++ [Eff.cleanup], ph.env, "failed"⟩
      | .proceed inum _ branch _ =>
          let st := implementPhase task ph.env (some inum) (some branch)
          match st.out with
          | .finished s => ⟨head ++ ph.trace ++ st.trace ++ [Eff.cleanup], st.env, s⟩
          | .raised e =>
              ⟨head ++ ph.trace ++ st.trace ++ failTrace e ++ [Eff.cleanup], st.env, "failed"⟩

/-! # Supporting lemmas -/

/-! ## Branch-name pipeline equivalences -/

lemma sepToDash_of_sep {c : Char} (h : isSepChar c = true) : sepToDash c = '-' := by
  unfold isSepChar at h
  unfold sepToDash
  rcases Bool.or_eq_true_iff.1 h with h12 | h3
  · simp [h12]
  · have : c = '-' := by simpa using h3
    subst this
    decide

lemma sepToDash_of_not_sep {c : Char} (h : isSepChar c = false) :
    sepToDash c = c := by
  unfold isSepChar at h
  unfold sepToDash
  simp only [Bool.or_eq_false_iff] at h
  simp [h.1.1, h.1.2]

lemma not_dash_of_not_sep {c : Char} (h : isSepChar c = false) : (c == '-') = false := by
  unfold isSepChar at h
  simp only [Bool.or_eq_false_iff] at h
  exact h.2

/-- The single-pass separator collapse of the amended wording agrees with
the two-pass substitution of the source (map separators to hyphens, then
collapse hyphen runs). -/
lemma collapseSeps_eq (l : List Char) :
    collapseSeps l = dedupDashes (l.map sepToDash) := by
  induction l with
  | nil => rfl
  | cons c cs ih =>
    cases cs with
    | nil =>
      by_cases h : isSepChar c = true
      · simp [collapseSeps, dedupDashes, h, sepToDash_of_sep h]
      · have h' : isSepChar c = false := by simpa using h
        simp [collapseSeps, dedupDashes, h', sepToDash_of_not_sep h']
    | cons d ds =>
      by_cases hc : isSepChar c = true
      · by_cases hd : isSepChar d = true
        · simp [collapseSeps, dedupDashes, hc, hd, sepToDash_of_sep hc,
            sepToDash_of_sep hd, ih]
        · have hd' : isSepChar d = false := by simpa using hd
          simp [collapseSeps, dedupDashes, hc, hd', sepToDash_of_sep hc,
            sepToDash_of_not_sep hd', not_dash_of_not_sep hd', ih]
      · have hc' : isSepChar c = false := by simpa using hc
        simp [collapseSeps, dedupDashes, hc', sepToDash_of_not_sep hc',
          not_dash_of_not_sep hc', ih]

/-- The if-chain prefix map of the source agrees with the lookup table of
the amended wording. -/
lemma taskTypeHead_eq (k : String) : taskTypeHead k = taskTypeHeadAmended k := by
  unfold taskTypeHead taskTypeHeadAmended typeHeadTable
  simp only [List.lookup]
  by_cases h1 : String.mk (lowerChars k) = "feature"
  · simp [h1]
  by_cases h2 : String.mk (lowerChars k) = "bugfix"
  · simp [beq_eq_false_iff_ne.2 h1, h2]
  by_cases h3 : String.mk (lowerChars k) = "bug"
  · simp [beq_eq_false_iff_ne.2 h1, beq_eq_false_iff_ne.2 h2, h3]
  by_cases h4 : String.mk (lowerChars k) = "fix"
  · simp [beq_eq_false_iff_ne.2 h1, beq_eq_false_iff_ne.2 h2, beq_eq_false_iff_ne.2 h3, h4]
  by_cases h5 : String.mk (lowerChars k) = "refactor"
  · simp [beq_eq_false_iff_ne.2 h1, beq_eq_false_iff_ne.2 h2, beq_eq_false_iff_ne.2 h3,
      beq_eq_false_iff_ne.2 h4, h5]
  by_cases h6 : String.mk (lowerChars k) = "docs"
  · simp [beq_eq_false_iff_ne.2 h1, beq_eq_false_iff_ne.2 h2, beq_eq_false_iff_ne.2 h3,
      beq_eq_false_iff_ne.2 h4, beq_eq_false_iff_ne.2 h5, h6]
  by_cases h7 : String.mk (lowerChars k) = "test"
  · simp [beq_eq_false_iff_ne.2 h1, beq_eq_false_iff_ne.2 h2, beq_eq_false_iff_ne.2 h3,
      beq_eq_false_iff_ne.2 h4, beq_eq_false_iff_ne.2 h5, beq_eq_false_iff_ne.2 h6, h7]
  by_cases h8 : String.mk (lowerChars k) = "chore"
  · simp [beq_eq_false_iff_ne.2 h1, beq_eq_false_iff_ne.2 h2, beq_eq_false_iff_ne.2 h3,
      beq_eq_false_iff_ne.2 h4, beq_eq_false_iff_ne.2 h5, beq_eq_false_iff_ne.2 h6,
      beq_eq_false_iff_ne.2 h7, h8]
  simp [beq_eq_false_iff_ne.2 h1, beq_eq_false_iff_ne.2 h2, beq_eq_false_iff_ne.2 h3,
    beq_eq_false_iff_ne.2 h4, beq_eq_false_iff_ne.2 h5, beq_eq_false_iff_ne.2 h6,
    beq_eq_false_iff_ne.2 h7, beq_eq_false_iff_ne.2 h8]

/-- The two word pipelines agree. -/
lemma slugWordsAmended_eq (t : String) : slugWordsAmended t = slugWords t := by
  unfold slugWordsAmended slugWords
  simp only [collapseSeps_eq]

/-- Sanity check: the docstring example of `generate_branch_name`. -/
theorem generate_branch_name_docstring_example :
    generate_branch_name 42 "Add dark mode toggle" "feature" =
      "feature/42-add-dark-mode-toggle" := by decide

/-! ## Retry-loop shape lemmas -/

lemma countSpawns_nil : countSpawns [] = 0 := rfl

lemma countSpawns_append (a b : List Eff) :
    countSpawns (a ++ b) = countSpawns a + countSpawns b := by
  unfold countSpawns
  exact List.countP_append _ _ _

lemma countSpawns_pair_le (sp : Eff) :
    countSpawns [sp, Eff.recvTopic "job_result" JOB_TIMEOUT] ≤ 1 := by
  cases sp <;> simp [countSpawns, isSpawn, List.countP_cons]

lemma countSpawns_pair_eq (sp : Eff) (hsp : isSpawn sp = true) :
    countSpawns [sp, Eff.recvTopic "job_result" JOB_TIMEOUT] = 1 := by
  cases sp <;> simp_all [countSpawns, isSpawn, List.countP_cons]

lemma countSpawns_triple (sp : Eff) (q : Nat) :
    countSpawns [sp, Eff.recvTopic "job_result" JOB_TIMEOUT, Eff.sleepFor q] =
      countSpawns [sp, Eff.recvTopic "job_result" JOB_TIMEOUT] := by
  cases sp <;> simp [countSpawns, isSpawn, List.countP_cons]

lemma runJobRetryAux_spawn_le (sp : Eff) (n : String) :
    ∀ (aLeft attempt : Nat) (e0 : String) (jobs : List (Option JobMsg)),
      countSpawns (runJobRetryAux sp n aLeft attempt e0 jobs).1 ≤ aLeft := by
  intro aLeft
  induction aLeft with
  | zero =>
    intro attempt e0 jobs
    simp [runJobRetryAux, countSpawns]
  | succ aLeft ih =>
    intro attempt e0 jobs
    unfold runJobRetryAux
    rcases h : (take1 jobs).1 with _ | m <;> simp only [h]
    · by_cases ha : aLeft = 0
      · subst ha
        simpa using countSpawns_pair_le sp
      · have ha' : (aLeft == 0) = false := by simpa using ha
        simp only [ha', Bool.false_eq_true, if_false, countSpawns_append, countSpawns_triple]
        have h1 := ih (attempt + 1)
          ("Timed out waiting for " ++ n ++ " to complete") (take1 jobs).2
        have h2 := countSpawns_pair_le sp
        omega
    · by_cases hf : (m.status == "failed") = true
      · simp only [hf, if_true]
        by_cases ha : aLeft = 0
        · subst ha
          simpa using countSpawns_pair_le sp
        · have ha' : (aLeft == 0) = false := by simpa using ha
          simp only [ha', Bool.false_eq_true, if_false, countSpawns_append, countSpawns_triple]
          have h1 := ih (attempt + 1) (m.error.getD (n ++ " failed")) (take1 jobs).2
          have h2 := countSpawns_pair_le sp
          omega
      · have hf' : (m.status == "failed") = false := by simpa using hf
        simp only [hf', Bool.false_eq_true, if_false]
        exact le_trans (countSpawns_pair_le sp) (by omega)

lemma runJobRetryAux_error_spawns (sp : Eff) (n : String) (hsp : isSpawn sp = true) :
    ∀ (aLeft attempt : Nat) (e0 : String) (jobs : List (Option JobMsg)) (e : String),
      (runJobRetryAux sp n aLeft attempt e0 jobs).2.2 = .error e →
        countSpawns (runJobRetryAux sp n aLeft attempt e0 jobs).1 = aLeft := by
  intro aLeft
  induction aLeft with
  | zero =>
    intro attempt e0 jobs e _
    simp [runJobRetryAux, countSpawns]
  | succ aLeft ih =>
    intro attempt e0 jobs e herr
    unfold runJobRetryAux at herr ⊢
    rcases h : (take1 jobs).1 with _ | m <;> simp only [h] at herr ⊢
    · by_cases ha : aLeft = 0
      · subst ha
        simpa using countSpawns_pair_eq sp hsp
      · have ha' : (aLeft == 0) = false := by simpa using ha
        simp only [ha', Bool.false_eq_true, if_false, countSpawns_append,
          countSpawns_triple] at herr ⊢
        have h1 := ih (attempt + 1)
          ("Timed out waiting for " ++ n ++ " to complete") (take1 jobs).2 e herr
        have h2 := countSpawns_pair_eq sp hsp
        omega
    · by_cases hf : (m.status == "failed") = true
      · simp only [hf, if_true] at herr ⊢
        by_cases ha : aLeft = 0
        · subst ha
          simpa using countSpawns_pair_eq sp hsp
        · have ha' : (aLeft == 0) = false := by simpa using ha
          simp only [ha', Bool.false_eq_true, if_false, countSpawns_append,
            countSpawns_triple] at herr ⊢
          have h1 := ih (attempt + 1) (m.error.getD (n ++ " failed")) (take1 jobs).2 e herr
          have h2 := countSpawns_pair_eq sp hsp
          omega
      · have hf' : (m.status == "failed") = false := by simpa using hf
        simp only [hf', Bool.false_eq_true, if_false] at herr
        cases herr

lemma sleepsOf_append (a b : List Eff) : sleepsOf (a ++ b) = sleepsOf a ++ sleepsOf b := by
  unfold sleepsOf
  exact List.filterMap_append _ _ _

lemma sleepsOf_pair (sp : Eff) (hsp : isSpawn sp = true) :
    sleepsOf [sp, Eff.recvTopic "job_result" JOB_TIMEOUT] = [] := by
  cases sp <;> simp_all [sleepsOf, isSpawn]

lemma sleepsOf_triple (sp : Eff) (q : Nat) (hsp : isSpawn sp = true) :
    sleepsOf [sp, Eff.recvTopic "job_result" JOB_TIMEOUT, Eff.sleepFor q] = [q] := by
  cases sp <;> simp_all [sleepsOf, isSpawn]

lemma sched_range_succ (a j : Nat) :
    (List.range (j + 1)).map (fun i => secs (2 ^ (a + i))) =
      secs (2 ^ a) :: (List.range j).map (fun i => secs (2 ^ (a + 1 + i))) := by
  rw [List.range_succ_eq_map, List.map_cons, List.map_map]
  simp only [Nat.add_zero]
  refine congrArg (List.cons (secs (2 ^ a))) ?_
  apply List.map_congr_left
  intro i _
  simp only [Function.comp_apply]
  rw [show a + (i + 1) = a + 1 + i from by omega]

lemma runJobRetryAux_sleeps (sp : Eff) (n : String) (hsp : isSpawn sp = true) :
    ∀ (aLeft attempt : Nat) (e0 : String) (jobs : List (Option JobMsg)),
      ∃ j, j ≤ aLeft - 1 ∧
        sleepsOf (runJobRetryAux sp n aLeft attempt e0 jobs).1 =
          (List.range j).map (fun i => secs (2 ^ (attempt + i))) := by
  intro aLeft
  induction aLeft with
  | zero =>
    intro attempt e0 jobs
    exact ⟨0, by omega, by simp [runJobRetryAux, sleepsOf]⟩
  | succ aLeft ih =>
    intro attempt e0 jobs
    unfold runJobRetryAux
    rcases h : (take1 jobs).1 with _ | m <;> simp only [h]
    · by_cases ha : aLeft = 0
      · subst ha
        exact ⟨0, by omega, by simpa using sleepsOf_pair sp hsp⟩
      · have ha' : (aLeft == 0) = false := by simpa using ha
        simp only [ha', Bool.false_eq_true, if_false]
        obtain ⟨j, hj, hs⟩ := ih (attempt + 1)
          ("Timed out waiting for " ++ n ++ " to complete") (take1 jobs).2
        refine ⟨j + 1, by omega, ?_⟩
        rw [sleepsOf_append, sleepsOf_triple sp _ hsp, hs, sched_range_succ]
        rfl
    · by_cases hf : (m.status == "failed") = true
      · simp only [hf, if_true]
        by_cases ha : aLeft = 0
        · subst ha
          exact ⟨0, by omega, by simpa using sleepsOf_pair sp hsp⟩
        · have ha' : (aLeft == 0) = false := by simpa using ha
          simp only [ha', Bool.false_eq_true, if_false]
          obtain ⟨j, hj, hs⟩ := ih (attempt + 1) (m.error.getD (n ++ " failed")) (take1 jobs).2
          refine ⟨j + 1, by omega, ?_⟩
          rw [sleepsOf_append, sleepsOf_triple sp _ hsp, hs, sched_range_succ]
          rfl
      · have hf' : (m.status == "failed") = false := by simpa using hf
        simp only [hf', Bool.false_eq_true, if_false]
        exact ⟨0, by omega, by simpa using sleepsOf_pair sp hsp⟩

/-! # Claim C6 -/

/-- C6 counterexample: the source keeps underscores (they are word
characters for the regex `\w`) and the `[\s_]+` substitution then turns
them into hyphens, while the claim's drop-set (characters other than
alphanumerics, hyphens, spaces) removes them before any collapse; at the
title `hello_world` the code yields `feature/1-hello-world` whereas the
claim-literal pipeline yields `feature/1-helloworld`, so the claim as
stated does not describe `generate_branch_name`. -/
theorem C6_branch_name_counterexample :
    generate_branch_name 1 "hello_world" "feature" = "feature/1-hello-world" ∧
    branch_name_claim_literal 1 "hello_world" "feature" = "feature/1-helloworld" ∧
    generate_branch_name 1 "hello_world" "feature" ≠
      branch_name_claim_literal 1 "hello_world" "feature" :=
  ⟨by decide, by decide, by decide⟩

/-- C6 amended: branch-name derivation is the pure function of
`(issue_number, title, task_type)` that maps the task type through the
fixed prefix table, lowercases the title keeping alphanumerics,
underscores, hyphens and spaces, collapses every run of separators
(spaces, underscores, hyphens) to a single hyphen and strips leading and
trailing hyphens, removes the 18 stop-words, keeps at most the first 8
remaining words joined with hyphens, cuts a slug longer than 50
characters back to the last hyphen within its first 50 characters (or to
the bare 50-character cut when no hyphen occurs there), and returns
`prefix ++ "/" ++ issue_number ++ "-" ++ slug`. -/
theorem C6_branch_name_amended (i : Int) (t k : String) :
    generate_branch_name i t k = branch_name_amended i t k := by
  unfold generate_branch_name branch_name_amended slugify
  simp only [slugWordsAmended_eq, taskTypeHead_eq]

/-! ## CI-loop round counting -/

/-- The CI loop's failure counter: it never exceeds the cap, it leaves via
the cap exactly when it reaches it, and a success exit happens strictly
below it. -/
lemma ciLoopAux_rounds (pr : Option Int) :
    ∀ (checks : List CheckSt) (logs : List String) (jobs : List (Option JobMsg)) (it : Nat),
      it ≤ MAX_CI_ITERATIONS →
        it ≤ (ciLoopAux pr checks logs jobs it).rounds ∧
        (ciLoopAux pr checks logs jobs it).rounds ≤ MAX_CI_ITERATIONS ∧
        ((ciLoopAux pr checks logs jobs it).out = .cap →
          (ciLoopAux pr checks logs jobs it).rounds = MAX_CI_ITERATIONS) ∧
        ((ciLoopAux pr checks logs jobs it).out = .passed →
          (ciLoopAux pr checks logs jobs it).rounds < MAX_CI_ITERATIONS) := by
  intro checks
  induction checks with
  | nil =>
    intro logs jobs it hit
    by_cases h : it < MAX_CI_ITERATIONS
    · simp [ciLoopAux, h]
      omega
    · simp [ciLoopAux, h]
      omega
  | cons c cs ih =>
    intro logs jobs it hit
    by_cases h : it < MAX_CI_ITERATIONS
    · cases c with
      | success => simp [ciLoopAux, h]; omega
      | pending =>
        have := ih logs jobs it hit
        simp only [ciLoopAux, h, if_true] at *
        exact this
      | failure =>
        rcases hr : (runJobRetry (.spawn .fix (it + 1) (some (takeD "" logs).1))
            ("fix job (CI iteration " ++ toString (it + 1) ++ ")") jobs).2.2 with e | m
        · simp [ciLoopAux, h, hr]
          omega
        · have := ih (takeD "" logs).2
            (runJobRetry (.spawn .fix (it + 1) (some (takeD "" logs).1))
              ("fix job (CI iteration " ++ toString (it + 1) ++ ")") jobs).2.1 (it + 1)
            (by omega)
          simp only [ciLoopAux, h, if_true, hr] at *
          exact ⟨le_trans (Nat.le_succ it) this.1, this.2⟩
    · simp [ciLoopAux, h]
      omega

/-! # Claim C2 -/

/-- C2 counterexample: with five straight CI failures (each fix job round
succeeding) followed by a success, the loop exits through the cap and the
task is failed right after the fifth observed failure; only five status
polls happen (the trace holds five `checkStatus` effects), so the success
that the sixth poll would have returned is never seen.  This contradicts
the claim that the task fails only upon a further, (N+1)-th observed
failure after the cap of fix jobs is exhausted. -/
theorem C2_ci_loop_counterexample :
    (ciLoopAux (some 7) [.failure, .failure, .failure, .failure, .failure, .success]
      ["l1", "l2", "l3", "l4", "l5"] (List.replicate 5 (some jobOk)) 0).out = .cap ∧
    (ciLoopAux (some 7) [.failure, .failure, .failure, .failure, .failure, .success]
      ["l1", "l2", "l3", "l4", "l5"] (List.replicate 5 (some jobOk)) 0).rounds = 5 ∧
    ((ciLoopAux (some 7) [.failure, .failure, .failure, .failure, .failure, .success]
      ["l1", "l2", "l3", "l4", "l5"] (List.replicate 5 (some jobOk)) 0).trace.countP
        fun e => match e with | Eff.checkStatus _ => true | _ => false) = 5 :=
  ⟨by decide, by decide, by decide⟩

/-- C2 amended: the CI verification loop launches at most
`MAX_CI_ITERATIONS = 5` fix-job rounds; the task transitions to failed via
the iteration cap exactly upon the fifth observed CI failure, immediately
after that fifth fix job ran and without polling the check status again;
a success result from the combined check status exits the loop without
failing the task (and can only be observed while fewer than five failures
have occurred). -/
theorem C2_ci_loop_amended (pr : Option Int) (checks : List CheckSt)
    (logs : List String) (jobs : List (Option JobMsg)) :
    (ciLoopAux pr checks logs jobs 0).rounds ≤ MAX_CI_ITERATIONS ∧
    ((ciLoopAux pr checks logs jobs 0).out = .cap →
      (ciLoopAux pr checks logs jobs 0).rounds = MAX_CI_ITERATIONS) ∧
    ((ciLoopAux pr checks logs jobs 0).out = .passed →
      (ciLoopAux pr checks logs jobs 0).rounds < MAX_CI_ITERATIONS) := by
  have h := ciLoopAux_rounds pr checks logs jobs 0 (by decide)
  exact ⟨h.2.1, h.2.2.1, h.2.2.2⟩

/-- Closed instance of the amended CI-loop theorem at the cap. -/
theorem C2_ci_loop_amended_witness :
    (ciLoopAux (some 7) [.failure, .failure, .failure, .failure, .failure, .success]
      ["l1", "l2", "l3", "l4", "l5"] (List.replicate 5 (some jobOk)) 0).rounds =
      MAX_CI_ITERATIONS :=
  (C2_ci_loop_amended (some 7) _ _ _).2.1 (by decide)

/-! # Claim C4 -/

/-- C4: an executor-job wait that fails or times out is retried, with at
most `MAX_JOB_RETRIES = 5` spawns in total and sleeps following the
exponential schedule 2, 4, 8, 16, 32 seconds between successive attempts
(an initial segment of that schedule is actually slept: five attempts
leave room for four sleeps); a permanent failure has used all five
spawns, and in a full run it marks the task failed with the error text
set and emits a failed worker-result. -/
theorem C4_job_retry_policy :
    (∀ (sp : Eff) (n : String) (jobs : List (Option JobMsg)),
        isSpawn sp = true →
          countSpawns (runJobRetry sp n jobs).1 ≤ MAX_JOB_RETRIES ∧
          (∃ k, k ≤ 4 ∧ sleepsOf (runJobRetry sp n jobs).1 =
            ([secs 2, secs 4, secs 8, secs 16, secs 32].take k)) ∧
          (∀ e, (runJobRetry sp n jobs).2.2 = .error e →
            countSpawns (runJobRetry sp n jobs).1 = MAX_JOB_RETRIES)) ∧
    (∀ rest : List (Option JobMsg),
        workerRun { skipPlan := true } { jobs := List.replicate 5 none ++ rest } 1 =
          ⟨[Eff.setupNamespace,
            Eff.updateTask { status := .implementing },
            Eff.spawn .implement 0 none, Eff.recvTopic "job_result" 3686400,
            Eff.sleepFor 2048,
            Eff.spawn .implement 0 none, Eff.recvTopic "job_result" 3686400,
            Eff.sleepFor 4096,
            Eff.spawn .implement 0 none, Eff.recvTopic "job_result" 3686400,
            Eff.sleepFor 8192,
            Eff.spawn .implement 0 none, Eff.recvTopic "job_result" 3686400,
            Eff.sleepFor 16384,
            Eff.spawn .implement 0 none, Eff.recvTopic "job_result" 3686400,
            Eff.updateTask { status := .failed, error := some "implement job (skip plan) failed after 5 attempts: Timed out waiting for implement job (skip plan) to complete" },
            Eff.notify "failed",
            Eff.cleanup],
           { jobs := rest }, "failed"⟩) := by
  constructor
  · intro sp n jobs hsp
    refine ⟨runJobRetryAux_spawn_le sp n MAX_JOB_RETRIES 1 "" jobs, ?_, ?_⟩
    · obtain ⟨j, hj, hs⟩ := runJobRetryAux_sleeps sp n hsp MAX_JOB_RETRIES 1 "" jobs
      refine ⟨j, by simpa [MAX_JOB_RETRIES] using hj, ?_⟩
      rw [runJobRetry, hs]
      have hj4 : j ≤ 4 := by simpa [MAX_JOB_RETRIES] using hj
      interval_cases j <;> decide
    · intro e he
      exact runJobRetryAux_error_spawns sp n hsp MAX_JOB_RETRIES 1 "" jobs e he
  · intro rest
    rfl

/-- Closed instance discharging the hypotheses of the retry-policy
theorem: five straight timeouts of a plan job spawn exactly five times
with sleeps 2, 4, 8, 16 seconds. -/
theorem C4_job_retry_policy_witness :
    countSpawns (runJobRetry (Eff.spawn .plan 1 none) "plan job (iteration 1)"
      (List.replicate 5 none)).1 = MAX_JOB_RETRIES ∧
    sleepsOf (runJobRetry (Eff.spawn .plan 1 none) "plan job (iteration 1)"
      (List.replicate 5 none)).1 = [secs 2, secs 4, secs 8, secs 16] := by
  refine ⟨?_, by decide⟩
  exact (C4_job_retry_policy.1 (Eff.spawn .plan 1 none) "plan job (iteration 1)"
    (List.replicate 5 none) (by decide)).2.2
    ("plan job (iteration 1) failed after 5 attempts: " ++
      "Timed out waiting for plan job (iteration 1) to complete") rfl

/-! # Claim C9 -/

/-- C9 counterexample: on a `completed` worker result the main-thread
handler updates the `worker_tasks` row (via `update_task_status`), so its
persistent writes are not limited to inbox items and
`MainThread.active_task_ids`. -/
theorem C9_main_thread_counterexample :
    (handleWorkerResult { status := "completed" }).contains
      (MTWrite.updateWorkerTask .completed none) = true ∧
    (handleWorkerResult { status := "completed" }).any touchesWorkerTaskRow = true := by
  exact ⟨by decide, by decide⟩

/-- C9 amended: when the main-thread workflow handles a worker-result
envelope, its persistent writes are inbox (QueueItem) inserts and, for
the statuses completed, cancelled, failed and needs_input, one update of
the WorkerTask row itself (status, and for failures the error text); it
never writes the MainThread row from this handler. -/
theorem C9_main_thread_amended (p : WorkerResultMsg) :
    ((handleWorkerResult p).all fun w => !touchesMainThreadRow w) = true ∧
    (((handleWorkerResult p).any touchesWorkerTaskRow = true) ↔
      p.status ∈ (["completed", "cancelled", "failed", "needs_input"] : List String)) := by
  unfold handleWorkerResult
  by_cases h1 : p.status = "plan_ready"
  · simp [h1, touchesMainThreadRow, touchesWorkerTaskRow]
  by_cases h2 : p.status = "plan_updated"
  · simp [beq_eq_false_iff_ne.2 h1, h2, touchesMainThreadRow, touchesWorkerTaskRow]
  by_cases h3 : p.status = "code_ready"
  · simp [beq_eq_false_iff_ne.2 h1, beq_eq_false_iff_ne.2 h2, h3,
      touchesMainThreadRow, touchesWorkerTaskRow]
  by_cases h4 : p.status = "feedback_addressed"
  · simp [beq_eq_false_iff_ne.2 h1, beq_eq_false_iff_ne.2 h2, beq_eq_false_iff_ne.2 h3,
      h4, touchesMainThreadRow, touchesWorkerTaskRow]
  by_cases h5 : p.status = "completed"
  · simp [beq_eq_false_iff_ne.2 h1, beq_eq_false_iff_ne.2 h2, beq_eq_false_iff_ne.2 h3,
      beq_eq_false_iff_ne.2 h4, h5, touchesMainThreadRow, touchesWorkerTaskRow]
  by_cases h6 : p.status = "cancelled"
  · simp [beq_eq_false_iff_ne.2 h1, beq_eq_false_iff_ne.2 h2, beq_eq_false_iff_ne.2 h3,
      beq_eq_false_iff_ne.2 h4, beq_eq_false_iff_ne.2 h5, h6,
      touchesMainThreadRow, touchesWorkerTaskRow]
  by_cases h7 : p.status = "failed"
  · simp [beq_eq_false_iff_ne.2 h1, beq_eq_false_iff_ne.2 h2, beq_eq_false_iff_ne.2 h3,
      beq_eq_false_iff_ne.2 h4, beq_eq_false_iff_ne.2 h5, beq_eq_false_iff_ne.2 h6, h7,
      touchesMainThreadRow, touchesWorkerTaskRow]
  by_cases h8 : p.status = "needs_input"
  · simp [beq_eq_false_iff_ne.2 h1, beq_eq_false_iff_ne.2 h2, beq_eq_false_iff_ne.2 h3,
      beq_eq_false_iff_ne.2 h4, beq_eq_false_iff_ne.2 h5, beq_eq_false_iff_ne.2 h6,
      beq_eq_false_iff_ne.2 h7, h8, touchesMainThreadRow, touchesWorkerTaskRow]
  simp [beq_eq_false_iff_ne.2 h1, beq_eq_false_iff_ne.2 h2, beq_eq_false_iff_ne.2 h3,
    beq_eq_false_iff_ne.2 h4, beq_eq_false_iff_ne.2 h5, beq_eq_false_iff_ne.2 h6,
    beq_eq_false_iff_ne.2 h7, beq_eq_false_iff_ne.2 h8, h5, h6, h7, h8,
    touchesMainThreadRow, touchesWorkerTaskRow]




/-! ## Poll-loop shape lemmas -/

lemma range_map_shift {α : Type} (g : Nat → α) (k m : Nat) :
    (List.range (m + 1)).map (fun j => g (k + j)) =
      g k :: (List.range m).map (fun j => g (k + 1 + j)) := by
  rw [List.range_succ_eq_map, List.map_cons, List.map_map]
  simp only [Nat.add_zero]
  refine congrArg (List.cons (g k)) ?_
  apply List.map_congr_left
  intro i _
  simp only [Function.comp_apply]
  rw [show k + (i + 1) = k + 1 + i from by omega]

lemma pollSched_le_cap (n : Nat) : pollSched n ≤ MAX_POLL_INTERVAL := by
  cases n with
  | zero => decide
  | succ n =>
    show pollStep (pollSched n) ≤ MAX_POLL_INTERVAL
    unfold pollStep pymin
    split <;> omega

lemma pollSched_first_values :
    (List.range 10).map pollSched =
      [10240, 15360, 23040, 34560, 51840, 77760, 116640, 174960, 262440, 307200] := by
  decide

lemma pollSched_capped : ∀ n, 9 ≤ n → pollSched n = MAX_POLL_INTERVAL := by
  intro n
  induction n with
  | zero => intro h; omega
  | succ n ih =>
    intro h
    by_cases h9 : 9 ≤ n
    · show pollStep (pollSched n) = MAX_POLL_INTERVAL
      rw [ih h9]
      decide
    · have hn : n = 8 := by omega
      subst hn
      decide

lemma pollStep_ge (i : Nat) (h : POLL_INITIAL ≤ i) : POLL_INITIAL ≤ pollStep i := by
  unfold pollStep pymin
  have h3 : i ≤ i * 3 / 2 := by
    calc i = i * 2 / 2 := by omega
    _ ≤ i * 3 / 2 := by
      apply Nat.div_le_div_right
      omega
  split
  · omega
  · unfold POLL_INITIAL MAX_POLL_INTERVAL secs ticksPerSecond at *
    omega

lemma qPollAux_recv_first (fuel interval t : Nat) (m : QMsg)
    (qr : List (Option QMsg)) (qf : List (Option GhAnswers))
    (h : t < PLAN_REVIEW_TIMEOUT) :
    qPollAux (fuel + 1) interval t (some m :: qr) qf =
      ⟨[.recvTopic "question_response" interval], qr, qf, .ui m⟩ := by
  simp [qPollAux, h, take1]

lemma qPollAux_forge_second (fuel interval t : Nat) (a : GhAnswers)
    (qr : List (Option QMsg)) (qf : List (Option GhAnswers))
    (h : t < PLAN_REVIEW_TIMEOUT) :
    qPollAux (fuel + 1) interval t (none :: qr) (some a :: qf) =
      ⟨[.recvTopic "question_response" interval, .checkIssueAnswers], qr, qf, .github a⟩ := by
  simp [qPollAux, h, take1]

lemma qPollAux_sched (fuel : Nat) :
    ∀ (k t : Nat) (qr : List (Option QMsg)) (qf : List (Option GhAnswers)),
      ∃ m, recvTimeoutsOf (qPollAux fuel (pollSched k) t qr qf).trace =
        (List.range m).map (fun j => pollSched (k + j)) := by
  induction fuel with
  | zero =>
    intro k t qr qf
    refine ⟨0, ?_⟩
    unfold qPollAux
    split <;> simp [recvTimeoutsOf]
  | succ fuel ih =>
    intro k t qr qf
    by_cases h : t < PLAN_REVIEW_TIMEOUT
    · rcases hq : qr with _ | ⟨x, qr'⟩
      · rcases hf : qf with _ | ⟨y, qf'⟩
        · obtain ⟨m, hm⟩ := ih (k + 1) (t + pollSched k) [] []
          refine ⟨m + 1, ?_⟩
          rw [range_map_shift]
          simp only [qPollAux, h, if_true, take1, recvTimeoutsOf, List.filterMap_append] at *
          rw [show pollStep (pollSched k) = pollSched (k + 1) from rfl] at *
          simp [hm, recvTimeoutsOf]
        · cases y with
          | none =>
            obtain ⟨m, hm⟩ := ih (k + 1) (t + pollSched k) [] qf'
            refine ⟨m + 1, ?_⟩
            rw [range_map_shift]
            simp only [qPollAux, h, if_true, take1, recvTimeoutsOf,
              List.filterMap_append] at *
            rw [show pollStep (pollSched k) = pollSched (k + 1) from rfl] at *
            simp [hm, recvTimeoutsOf]
          | some a =>
            refine ⟨1, ?_⟩
            simp [qPollAux, h, take1, recvTimeoutsOf]
            rw [show List.range 1 = [0] from by decide]
            simp
      · cases x with
        | some m' =>
          refine ⟨1, ?_⟩
          simp [qPollAux, h, take1, recvTimeoutsOf]
          rw [show List.range 1 = [0] from by decide]
          simp
        | none =>
          rcases hf : qf with _ | ⟨y, qf'⟩
          · obtain ⟨m, hm⟩ := ih (k + 1) (t + pollSched k) qr' []
            refine ⟨m + 1, ?_⟩
            rw [range_map_shift]
            simp only [qPollAux, h, if_true, take1, recvTimeoutsOf,
              List.filterMap_append] at *
            rw [show pollStep (pollSched k) = pollSched (k + 1) from rfl] at *
            simp [hm, recvTimeoutsOf]
          · cases y with
            | none =>
              obtain ⟨m, hm⟩ := ih (k + 1) (t + pollSched k) qr' qf'
              refine ⟨m + 1, ?_⟩
              rw [range_map_shift]
              simp only [qPollAux, h, if_true, take1, recvTimeoutsOf,
                List.filterMap_append] at *
              rw [show pollStep (pollSched k) = pollSched (k + 1) from rfl] at *
              simp [hm, recvTimeoutsOf]
            | some a =>
              refine ⟨1, ?_⟩
              simp [qPollAux, h, take1, recvTimeoutsOf]
              rw [show List.range 1 = [0] from by decide]
              simp
    · refine ⟨0, ?_⟩
      simp [qPollAux, h, recvTimeoutsOf]

lemma qPollAux_empty_timeout :
    ∀ (fuel interval t : Nat),
      POLL_INITIAL ≤ interval →
      PLAN_REVIEW_TIMEOUT ≤ t + fuel * POLL_INITIAL →
        (qPollAux fuel interval t [] []).out = .timedOut ∧
        PLAN_REVIEW_TIMEOUT ≤ t + (recvTimeoutsOf (qPollAux fuel interval t [] []).trace).sum := by
  intro fuel
  induction fuel with
  | zero =>
    intro interval t hi ht
    have h : ¬(t < PLAN_REVIEW_TIMEOUT) := by omega
    simp [qPollAux, h, recvTimeoutsOf]
    omega
  | succ fuel ih =>
    intro interval t hi ht
    by_cases h : t < PLAN_REVIEW_TIMEOUT
    · have hstep := pollStep_ge interval hi
      have hrec := ih (pollStep interval) (t + interval)
        hstep (by
          have : POLL_INITIAL ≤ interval := hi
          have hm : (fuel + 1) * POLL_INITIAL = fuel * POLL_INITIAL + POLL_INITIAL :=
            by ring
          omega)
      simp only [qPollAux, h, if_true, take1, recvTimeoutsOf, List.filterMap_append] at *
      refine ⟨hrec.1, ?_⟩
      have := hrec.2
      simp only [recvTimeoutsOf] at this
      simp [List.sum_cons]
      omega
    · have h' : ¬(t < PLAN_REVIEW_TIMEOUT) := h
      simp [qPollAux, h', recvTimeoutsOf]
      omega

lemma pPollAux_recv_first (cid : Int) (fuel interval t : Nat) (m : PMsg)
    (pr : List (Option PMsg)) (re : List Bool)
    (fo : List (Option (String × Option String)))
    (h : t < PLAN_REVIEW_TIMEOUT) :
    pPollAux cid (fuel + 1) interval t (some m :: pr) re fo =
      ⟨[.recvTopic "plan_response" interval], pr, re, fo, .ui m⟩ := by
  simp [pPollAux, h, take1]

lemma pPollAux_reaction_second (cid : Int) (fuel interval t : Nat)
    (pr : List (Option PMsg)) (re : List Bool)
    (fo : List (Option (String × Option String)))
    (h : t < PLAN_REVIEW_TIMEOUT) (hc : (cid != 0) = true) :
    pPollAux cid (fuel + 1) interval t (none :: pr) (true :: re) fo =
      ⟨[.recvTopic "plan_response" interval, .checkReactions], pr, re, fo, .ghReaction⟩ := by
  simp [pPollAux, h, hc, take1, takeD]

lemma pPollAux_comments_third (cid : Int) (fuel interval t : Nat)
    (a : String) (tx : Option String)
    (pr : List (Option PMsg)) (re : List Bool)
    (fo : List (Option (String × Option String)))
    (h : t < PLAN_REVIEW_TIMEOUT) (hc : (cid != 0) = true) :
    pPollAux cid (fuel + 1) interval t (none :: pr) (false :: re) (some (a, tx) :: fo) =
      ⟨[.recvTopic "plan_response" interval, .checkReactions, .checkIssueApproval],
       pr, re, fo, .gh a tx⟩ := by
  simp [pPollAux, h, hc, take1, takeD]

lemma pPollAux_sched (cid : Int) (fuel : Nat) :
    ∀ (k t : Nat) (pr : List (Option PMsg)) (re : List Bool)
      (fo : List (Option (String × Option String))),
      ∃ m, recvTimeoutsOf (pPollAux cid fuel (pollSched k) t pr re fo).trace =
        (List.range m).map (fun j => pollSched (k + j)) := by
  induction fuel with
  | zero =>
    intro k t pr re fo
    refine ⟨0, ?_⟩
    unfold pPollAux
    split <;> simp [recvTimeoutsOf]
  | succ fuel ih =>
    intro k t pr re fo
    by_cases h : t < PLAN_REVIEW_TIMEOUT
    · rcases hpr : take1 pr with ⟨x, pr2⟩
      rcases x with _ | m'
      · by_cases hc : (cid != 0) = true
        · rcases hre : takeD false re with ⟨b, re2⟩
          rcases b
          · rcases hfo : take1 fo with ⟨y, fo2⟩
            rcases y with _ | a
            · obtain ⟨m, hm⟩ := ih (k + 1) (t + pollSched k) pr2 re2 fo2
              refine ⟨m + 1, ?_⟩
              rw [range_map_shift]
              simp only [pPollAux, h, if_true, hc, hpr, hre, hfo, recvTimeoutsOf,
                List.filterMap_append] at *
              rw [show pollStep (pollSched k) = pollSched (k + 1) from rfl] at *
              simp [hm, recvTimeoutsOf]
            · refine ⟨1, ?_⟩
              simp [pPollAux, h, hc, hpr, hre, hfo, recvTimeoutsOf]
              rw [show List.range 1 = [0] from by decide]
              simp
          · refine ⟨1, ?_⟩
            simp [pPollAux, h, hc, hpr, hre, recvTimeoutsOf]
            rw [show List.range 1 = [0] from by decide]
            simp
        · have hc' : (cid != 0) = false := by simpa using hc
          rcases hfo : take1 fo with ⟨y, fo2⟩
          rcases y with _ | a
          · obtain ⟨m, hm⟩ := ih (k + 1) (t + pollSched k) pr2 re fo2
            refine ⟨m + 1, ?_⟩
            rw [range_map_shift]
            simp only [pPollAux, h, if_true, hc', Bool.false_eq_true, if_false,
              hpr, hfo, recvTimeoutsOf, List.filterMap_append] at *
            rw [show pollStep (pollSched k) = pollSched (k + 1) from rfl] at *
            simp [hm, recvTimeoutsOf]
          · refine ⟨1, ?_⟩
            simp [pPollAux, h, hc', hpr, hfo, recvTimeoutsOf]
            rw [show List.range 1 = [0] from by decide]
            simp
      · refine ⟨1, ?_⟩
        simp [pPollAux, h, hpr, recvTimeoutsOf]
        rw [show List.range 1 = [0] from by decide]
        simp
    · refine ⟨0, ?_⟩
      simp [pPollAux, h, recvTimeoutsOf]

lemma pPollAux_empty_timeout (cid : Int) :
    ∀ (fuel interval t : Nat),
      POLL_INITIAL ≤ interval →
      PLAN_REVIEW_TIMEOUT ≤ t + fuel * POLL_INITIAL →
        (pPollAux cid fuel interval t [] [] []).out = .timedOut ∧
        PLAN_REVIEW_TIMEOUT ≤
          t + (recvTimeoutsOf (pPollAux cid fuel interval t [] [] []).trace).sum := by
  intro fuel
  induction fuel with
  | zero =>
    intro interval t hi ht
    have h : ¬(t < PLAN_REVIEW_TIMEOUT) := by omega
    simp [pPollAux, h, recvTimeoutsOf]
    omega
  | succ fuel ih =>
    intro interval t hi ht
    by_cases h : t < PLAN_REVIEW_TIMEOUT
    · have hstep := pollStep_ge interval hi
      have hrec := ih (pollStep interval) (t + interval)
        hstep (by
          have hm : (fuel + 1) * POLL_INITIAL = fuel * POLL_INITIAL + POLL_INITIAL :=
            by ring
          omega)
      by_cases hc : (cid != 0) = true
      · simp only [pPollAux, h, if_true, hc, take1, takeD, recvTimeoutsOf,
          List.filterMap_append] at *
        refine ⟨hrec.1, ?_⟩
        have := hrec.2
        simp only [recvTimeoutsOf] at this
        simp [List.sum_cons]
        omega
      · have hc' : (cid != 0) = false := by simpa using hc
        simp only [pPollAux, h, if_true, hc', Bool.false_eq_true, if_false, take1, takeD,
          recvTimeoutsOf, List.filterMap_append] at *
        refine ⟨hrec.1, ?_⟩
        have := hrec.2
        simp only [recvTimeoutsOf] at this
        simp [List.sum_cons]
        omega
    · have h' : ¬(t < PLAN_REVIEW_TIMEOUT) := h
      simp [pPollAux, h', recvTimeoutsOf]
      omega

/-! # Claim C5 -/

set_option maxRecDepth 4000 in
/-- C5: in both user-decision waits (question sub-phase and plan-review
sub-phase), each iteration first performs `recv` on the in-app topic with
the current poll interval as timeout and uses an arriving message;
otherwise it queries the forge (issue comments for answers; for plan
review, first the reactions of the designated plan comment when one
exists, then the approve/revise grammar in new comments).  The recv
timeouts recorded by any run follow the schedule `pollSched`, which
starts at 10 s, multiplies by 1.5 after every unsuccessful iteration and
is capped at 300 s (reaching the cap from the tenth iteration on); and
with no signal from either source the wait gives up with a timeout only
after the accumulated recv-wait reaches the 24 h budget. -/
theorem C5_dual_source_polling :
    (∀ (fuel interval t : Nat) (m : QMsg) (qr : List (Option QMsg))
        (qf : List (Option GhAnswers)), t < PLAN_REVIEW_TIMEOUT →
        qPollAux (fuel + 1) interval t (some m :: qr) qf =
          ⟨[.recvTopic "question_response" interval], qr, qf, .ui m⟩) ∧
    (∀ (cid : Int) (fuel interval t : Nat) (m : PMsg) (pr : List (Option PMsg))
        (re : List Bool) (fo : List (Option (String × Option String))),
        t < PLAN_REVIEW_TIMEOUT →
        pPollAux cid (fuel + 1) interval t (some m :: pr) re fo =
          ⟨[.recvTopic "plan_response" interval], pr, re, fo, .ui m⟩) ∧
    (∀ (fuel interval t : Nat) (a : GhAnswers) (qr : List (Option QMsg))
        (qf : List (Option GhAnswers)), t < PLAN_REVIEW_TIMEOUT →
        qPollAux (fuel + 1) interval t (none :: qr) (some a :: qf) =
          ⟨[.recvTopic "question_response" interval, .checkIssueAnswers],
           qr, qf, .github a⟩) ∧
    (∀ (cid : Int) (fuel interval t : Nat) (pr : List (Option PMsg)) (re : List Bool)
        (fo : List (Option (String × Option String))),
        t < PLAN_REVIEW_TIMEOUT → (cid != 0) = true →
        pPollAux cid (fuel + 1) interval t (none :: pr) (true :: re) fo =
          ⟨[.recvTopic "plan_response" interval, .checkReactions],
           pr, re, fo, .ghReaction⟩) ∧
    (∀ (cid : Int) (fuel interval t : Nat) (a : String) (tx : Option String)
        (pr : List (Option PMsg)) (re : List Bool)
        (fo : List (Option (String × Option String))),
        t < PLAN_REVIEW_TIMEOUT → (cid != 0) = true →
        pPollAux cid (fuel + 1) interval t (none :: pr) (false :: re)
            (some (a, tx) :: fo) =
          ⟨[.recvTopic "plan_response" interval, .checkReactions, .checkIssueApproval],
           pr, re, fo, .gh a tx⟩) ∧
    (∀ (qr : List (Option QMsg)) (qf : List (Option GhAnswers)),
        ∃ m, recvTimeoutsOf (qPoll qr qf).trace = (List.range m).map pollSched) ∧
    (∀ (cid : Int) (pr : List (Option PMsg)) (re : List Bool)
        (fo : List (Option (String × Option String))),
        ∃ m, recvTimeoutsOf (pPoll cid pr re fo).trace = (List.range m).map pollSched) ∧
    pollSched 0 = secs 10 ∧
    (∀ n, pollSched (n + 1) = pymin (pollSched n * 3 / 2) (secs 300)) ∧
    (∀ n, pollSched n ≤ secs 300) ∧
    (∀ n, 9 ≤ n → pollSched n = secs 300) ∧
    ((qPoll [] []).out = .timedOut ∧
      secs 86400 ≤ (recvTimeoutsOf (qPoll [] []).trace).sum) ∧
    (∀ cid : Int, (pPoll cid [] [] []).out = .timedOut ∧
      secs 86400 ≤ (recvTimeoutsOf (pPoll cid [] [] []).trace).sum) := by
  refine ⟨qPollAux_recv_first, pPollAux_recv_first, qPollAux_forge_second,
    pPollAux_reaction_second, pPollAux_comments_third, ?_, ?_, rfl, fun n => rfl, ?_, ?_, ?_, ?_⟩
  · intro qr qf
    obtain ⟨m, hm⟩ := qPollAux_sched POLL_FUEL 0 0 qr qf
    refine ⟨m, ?_⟩
    rw [show qPoll qr qf = qPollAux POLL_FUEL (pollSched 0) 0 qr qf from rfl, hm]
    apply List.map_congr_left
    intro i _
    rw [Nat.zero_add]
  · intro cid pr re fo
    obtain ⟨m, hm⟩ := pPollAux_sched cid POLL_FUEL 0 0 pr re fo
    refine ⟨m, ?_⟩
    rw [show pPoll cid pr re fo = pPollAux cid POLL_FUEL (pollSched 0) 0 pr re fo from rfl, hm]
    apply List.map_congr_left
    intro i _
    rw [Nat.zero_add]
  · intro n
    exact pollSched_le_cap n
  · intro n hn
    exact pollSched_capped n hn
  · have := qPollAux_empty_timeout POLL_FUEL POLL_INITIAL 0 (le_refl _) (by decide)
    exact ⟨this.1, by simpa using this.2⟩
  · intro cid
    have := pPollAux_empty_timeout cid POLL_FUEL POLL_INITIAL 0 (le_refl _) (by decide)
    exact ⟨this.1, by simpa using this.2⟩

/-- Closed instances discharging the hypotheses of the dual-source
polling theorem: a first-iteration in-app message is used as is, a
first-iteration approval reaction is used when no message arrived, and
the schedule is capped from the tenth iteration on. -/
theorem C5_dual_source_polling_witness :
    qPollAux (8640 + 1) (secs 10) 0 [some { action := "answer" }] [] =
      ⟨[.recvTopic "question_response" (secs 10)], [], [], .ui { action := "answer" }⟩ ∧
    pPollAux 5 (8640 + 1) (secs 10) 0 [none] [true] [] =
      ⟨[.recvTopic "plan_response" (secs 10), .checkReactions], [], [], [], .ghReaction⟩ ∧
    pollSched 9 = secs 300 :=
  ⟨C5_dual_source_polling.1 8640 (secs 10) 0 { action := "answer" } [] [] (by decide),
   C5_dual_source_polling.2.2.2.1 5 8640 (secs 10) 0 [] [] [] (by decide) (by decide),
   C5_dual_source_polling.2.2.2.2.2.2.2.2.2.2.1 9 (by decide)⟩


lemma runJobRetryAux_mem (sp : Eff) (n : String) :
    ∀ (aLeft attempt : Nat) (e0 : String) (jobs : List (Option JobMsg)) (e : Eff),
      e ∈ (runJobRetryAux sp n aLeft attempt e0 jobs).1 →
        e = sp ∨ e = Eff.recvTopic "job_result" JOB_TIMEOUT ∨ ∃ q, e = Eff.sleepFor q := by
  intro aLeft
  induction aLeft with
  | zero =>
    intro attempt e0 jobs e he
    simp [runJobRetryAux] at he
  | succ aLeft ih =>
    intro attempt e0 jobs e he
    unfold runJobRetryAux at he
    rcases h : (take1 jobs).1 with _ | m <;> simp only [h] at he
    · by_cases ha : aLeft = 0
      · subst ha
        simp at he
        rcases he with h1 | h1 <;> simp [h1]
      · have ha' : (aLeft == 0) = false := by simpa using ha
        simp only [ha', Bool.false_eq_true, if_false, List.mem_append, List.mem_cons,
          List.mem_singleton] at he
        rcases he with ((h1 | h1 | h1) | h1)
        · simp [h1]
        · simp [h1]
        · simp at h1
          simp [h1]
        · exact ih _ _ _ e h1
    · by_cases hf : (m.status == "failed") = true
      · simp only [hf, if_true] at he
        by_cases ha : aLeft = 0
        · subst ha
          simp at he
          rcases he with h1 | h1 <;> simp [h1]
        · have ha' : (aLeft == 0) = false := by simpa using ha
          simp only [ha', Bool.false_eq_true, if_false, List.mem_append, List.mem_cons,
            List.mem_singleton] at he
          rcases he with ((h1 | h1 | h1) | h1)
          · simp [h1]
          · simp [h1]
          · simp at h1
            simp [h1]
          · exact ih _ _ _ e h1
      · have hf' : (m.status == "failed") = false := by simpa using hf
        simp only [hf', Bool.false_eq_true, if_false] at he
        simp at he
        rcases he with h1 | h1 <;> simp [h1]

lemma reviewLoopAux_spawns (prUrl : Option String) (prNumber : Option Int) :
    ∀ (polls : List PrSt) (pn : List Bool) (pf : List String)
      (jobs : List (Option JobMsg)) (nows : List Nat) (lastCheck fi : Nat) (e : Eff),
      e ∈ (reviewLoopAux prUrl prNumber polls pn pf jobs nows lastCheck fi).trace →
        isSpawn e = true → ∃ i fb, e = Eff.spawn .feedback i fb := by
  intro polls
  induction polls with
  | nil =>
    intro pn pf jobs nows lastCheck fi e he _
    simp [reviewLoopAux] at he
  | cons p ps ih =>
    intro pn pf jobs nows lastCheck fi e he hsp
    cases p with
    | notFound =>
      simp only [reviewLoopAux, List.mem_append, List.mem_cons, List.mem_singleton,
        List.not_mem_nil, or_false] at he
      repeat' rcases he with he | he
      all_goals first
        | (exact ih _ _ _ _ _ _ e he hsp)
        | (simp [isSpawn] at hsp)
    | merged =>
      simp only [reviewLoopAux, List.mem_append, List.mem_cons, List.mem_singleton,
        List.not_mem_nil, or_false] at he
      repeat' rcases he with he | he
      all_goals first
        | (exact ih _ _ _ _ _ _ e he hsp)
        | (simp [isSpawn] at hsp)
    | closed =>
      simp only [reviewLoopAux, List.mem_append, List.mem_cons, List.mem_singleton,
        List.not_mem_nil, or_false] at he
      repeat' rcases he with he | he
      all_goals first
        | (exact ih _ _ _ _ _ _ e he hsp)
        | (simp [isSpawn] at hsp)
    | openPr =>
      by_cases hnew : (takeD false pn).1 = true
      · by_cases hfb : ((takeD "" pf).1 == "") = true
        · simp only [reviewLoopAux, hnew, hfb, if_true, List.mem_append, List.mem_cons,
            List.mem_singleton, List.not_mem_nil, or_false] at he
          repeat' rcases he with he | he
          all_goals first
            | (exact ih _ _ _ _ _ _ e he hsp)
            | (simp [isSpawn] at hsp)
        · have hfb' : ((takeD "" pf).1 == "") = false := by simpa using hfb
          rcases hr : (runJobRetry (.spawn .feedback (fi + 1) (some (takeD "" pf).1))
              ("feedback job (iteration " ++ toString (fi + 1) ++ ")") jobs).2.2 with er | m
          · simp only [reviewLoopAux, hnew, hfb', if_true, Bool.false_eq_true, if_false, hr,
              List.mem_append, List.mem_cons, List.mem_singleton, List.not_mem_nil,
              or_false] at he
            repeat' rcases he with he | he
            all_goals first
              | (exact ih _ _ _ _ _ _ e he hsp)
              | (rcases runJobRetryAux_mem _ _ _ _ _ _ e he with h2 | h2 | ⟨q, h2⟩ <;>
                  first
                    | exact ⟨_, _, h2⟩
                    | (subst h2; simp [isSpawn] at hsp))
              | (simp [isSpawn] at hsp)
          · simp only [reviewLoopAux, hnew, hfb', if_true, Bool.false_eq_true, if_false, hr,
              List.mem_append, List.mem_cons, List.mem_singleton, List.not_mem_nil,
              or_false] at he
            repeat' rcases he with he | he
            all_goals first
              | (exact ih _ _ _ _ _ _ e he hsp)
              | (rcases runJobRetryAux_mem _ _ _ _ _ _ e he with h2 | h2 | ⟨q, h2⟩ <;>
                  first
                    | exact ⟨_, _, h2⟩
                    | (subst h2; simp [isSpawn] at hsp))
              | (simp [isSpawn] at hsp)
      · have hnew' : (takeD false pn).1 = false := by simpa using hnew
        simp only [reviewLoopAux, hnew', Bool.false_eq_true, if_false, List.mem_append,
          List.mem_cons, List.mem_singleton, List.not_mem_nil, or_false] at he
        repeat' rcases he with he | he
        all_goals first
          | (exact ih _ _ _ _ _ _ e he hsp)
          | (simp [isSpawn] at hsp)

lemma reviewLoopAux_spawnOf_false (prUrl : Option String) (prNumber : Option Int)
    (m : JobMode) (hm : (m == JobMode.feedback) = false) :
    ∀ (polls : List PrSt) (pn : List Bool) (pf : List String)
      (jobs : List (Option JobMsg)) (nows : List Nat) (lastCheck fi : Nat) (e : Eff),
      e ∈ (reviewLoopAux prUrl prNumber polls pn pf jobs nows lastCheck fi).trace →
        isSpawnOf m e = false := by
  intro polls pn pf jobs nows lastCheck fi e he
  by_cases hs : isSpawn e = true
  · obtain ⟨i, fb, rfl⟩ :=
      reviewLoopAux_spawns prUrl prNumber polls pn pf jobs nows lastCheck fi e he hs
    simpa [isSpawnOf] using hm
  · cases e <;> simp_all [isSpawn, isSpawnOf]

lemma reviewLoopAux_first_since (prUrl : Option String) (prNumber : Option Int)
    (polls : List PrSt) (pn : List Bool) (pf : List String)
    (jobs : List (Option JobMsg)) (nows : List Nat) (lastCheck fi : Nat) :
    ((sincesOf (reviewLoopAux prUrl prNumber polls pn pf jobs nows
        lastCheck fi).trace).head?).getD lastCheck = lastCheck := by
  cases polls with
  | nil => simp [reviewLoopAux, sincesOf]
  | cons p ps =>
    cases p with
    | notFound => simp [reviewLoopAux, sincesOf]
    | merged => simp [reviewLoopAux, sincesOf]
    | closed => simp [reviewLoopAux, sincesOf]
    | openPr =>
      by_cases hnew : (takeD false pn).1 = true
      · by_cases hfb : ((takeD "" pf).1 == "") = true
        · simp [reviewLoopAux, hnew, hfb, sincesOf, List.filterMap_append]
        · have hfb' : ((takeD "" pf).1 == "") = false := by simpa using hfb
          rcases hr : (runJobRetry (.spawn .feedback (fi + 1) (some (takeD "" pf).1))
              ("feedback job (iteration " ++ toString (fi + 1) ++ ")") jobs).2.2 with er | mm
          · simp [reviewLoopAux, hnew, hfb', hr, sincesOf, List.filterMap_append]
          · simp [reviewLoopAux, hnew, hfb', hr, sincesOf, List.filterMap_append]
      · have hnew' : (takeD false pn).1 = false := by simpa using hnew
        simp [reviewLoopAux, hnew', sincesOf, List.filterMap_append]

lemma workerRun_resume (task : TaskRow) (env : Env) (fuel : Nat)
    (h : (truthyOptStr task.prUrl && truthyOptInt task.prNumber) = true) :
    ∃ tail, (workerRun task env fuel).trace =
      Eff.setupNamespace ::
      Eff.updateTask { status := .under_review, prUrl := task.prUrl,
                       prNumber := task.prNumber } ::
      ((reviewLoopAux task.prUrl task.prNumber env.prPolls env.prNew env.prFeedback
          env.jobs env.nows task.createdAt 0).trace ++ tail) ∧
      sincesOf tail = [] ∧ ∀ e ∈ tail, isSpawn e = false := by
  simp only [workerRun, h, if_true]
  rcases hout : (reviewLoopAux task.prUrl task.prNumber env.prPolls env.prNew env.prFeedback
      env.jobs env.nows task.createdAt 0).out with _ | _ | _ | er | _ <;>
    simp only [hout]
  case merged | closedNoMerge | prGone | envOut =>
    exact ⟨[Eff.cleanup], by simp, by simp [sincesOf],
      by intro e he; simp at he; subst he; rfl⟩
  case err =>
    refine ⟨failTrace er ++ [Eff.cleanup], by simp [failTrace], by simp [sincesOf, failTrace],
      ?_⟩
    intro e he
    simp [failTrace] at he
    rcases he with rfl | rfl | rfl <;> rfl

/-- C3: counterexample.  The claim's trigger is "the loaded record already
has a `pr_number`", but line 816 of worker.py tests `task.pr_url and
task.pr_number`: a row with a `pr_number` and no `pr_url` does not resume.
On such a row (with an empty environment) the workflow runs the normal
planning path, launching the plan executor job five times (the retry
loop), instead of entering the code-review loop with no plan job. -/
theorem C3_resume_counterexample :
    (({ prNumber := some 42 } : TaskRow).prNumber ≠ none) ∧
    (workerRun { prNumber := some 42 } {} 1).trace.countP (isSpawnOf .plan) = 5 ∧
    (workerRun { prNumber := some 42 } {} 1).status = "failed" := by decide

/-- C3, amended: for every task whose loaded record has a truthy `pr_url`
AND a truthy `pr_number` on workflow entry, the worker provisions the
sandbox and enters the code-review loop directly: the trace begins with
the namespace setup and the `under_review` update carrying those fields,
no plan job and no implement job is launched anywhere in the run, and the
first comments-since watermark queried (if any) is `task.created_at`. -/
theorem C3_resume_amended (task : TaskRow) (env : Env) (fuel : Nat)
    (h1 : truthyOptStr task.prUrl = true) (h2 : truthyOptInt task.prNumber = true) :
    ((workerRun task env fuel).trace.take 2 =
      [Eff.setupNamespace,
       Eff.updateTask { status := .under_review, prUrl := task.prUrl,
                        prNumber := task.prNumber }]) ∧
    (∀ e ∈ (workerRun task env fuel).trace,
        isSpawnOf .plan e = false ∧ isSpawnOf .implement e = false) ∧
    ((sincesOf (workerRun task env fuel).trace).head?).getD task.createdAt
      = task.createdAt := by
  have hc : (truthyOptStr task.prUrl && truthyOptInt task.prNumber) = true := by
    simp [h1, h2]
  obtain ⟨tail, htr, hsin, htail⟩ := workerRun_resume task env fuel hc
  refine ⟨?_, ?_, ?_⟩
  · rw [htr]
    rfl
  · intro e he
    rw [htr] at he
    simp only [List.mem_cons, List.mem_append] at he
    rcases he with rfl | rfl | he | he
    · exact ⟨rfl, rfl⟩
    · exact ⟨rfl, rfl⟩
    · exact ⟨reviewLoopAux_spawnOf_false _ _ JobMode.plan (by decide) _ _ _ _ _ _ _ e he,
             reviewLoopAux_spawnOf_false _ _ JobMode.implement (by decide) _ _ _ _ _ _ _ e he⟩
    · have hs := htail e he
      constructor <;> (cases e <;> simp_all [isSpawn, isSpawnOf])
  · rw [htr]
    have hstep : sincesOf (Eff.setupNamespace ::
        Eff.updateTask { status := .under_review, prUrl := task.prUrl,
                         prNumber := task.prNumber } ::
        ((reviewLoopAux task.prUrl task.prNumber env.prPolls env.prNew env.prFeedback
            env.jobs env.nows task.createdAt 0).trace ++ tail))
        = sincesOf (reviewLoopAux task.prUrl task.prNumber env.prPolls env.prNew
            env.prFeedback env.jobs env.nows task.createdAt 0).trace
          ++ sincesOf tail := by
      show sincesOf ((reviewLoopAux task.prUrl task.prNumber env.prPolls env.prNew
          env.prFeedback env.jobs env.nows task.createdAt 0).trace ++ tail) = _
      simp [sincesOf, List.filterMap_append]
    rw [hstep, hsin, List.append_nil]
    exact reviewLoopAux_first_since task.prUrl task.prNumber env.prPolls env.prNew
      env.prFeedback env.jobs env.nows task.createdAt 0

/-- C3 witness: a concrete resuming row (both `pr_url` and `pr_number`
set) with an empty environment satisfies the amended statement. -/
theorem C3_resume_amended_witness :
    (truthyOptStr (({ prUrl := some "u", prNumber := some 5 } : TaskRow)).prUrl = true ∧
     truthyOptInt (({ prUrl := some "u", prNumber := some 5 } : TaskRow)).prNumber = true) ∧
    (((workerRun { prUrl := some "u", prNumber := some 5 } {} 0).trace.take 2 =
       [Eff.setupNamespace,
        Eff.updateTask { status := .under_review, prUrl := some "u", prNumber := some 5 }]) ∧
     (∀ e ∈ (workerRun { prUrl := some "u", prNumber := some 5 } {} 0).trace,
        isSpawnOf .plan e = false ∧ isSpawnOf .implement e = false) ∧
     ((sincesOf (workerRun { prUrl := some "u", prNumber := some 5 } {} 0).trace).head?).getD
        ({ prUrl := some "u", prNumber := some 5 } : TaskRow).createdAt
       = ({ prUrl := some "u", prNumber := some 5 } : TaskRow).createdAt) :=
  ⟨⟨by decide, by decide⟩,
   C3_resume_amended { prUrl := some "u", prNumber := some 5 } {} 0 (by decide) (by decide)⟩


/-! ## Updates appearing in traces (for the pending-questions invariant) -/

lemma mem_updatesOf {u : TaskUpdate} {tr : List Eff} (h : u ∈ updatesOf tr) :
    Eff.updateTask u ∈ tr := by
  unfold updatesOf at h
  obtain ⟨e, he, hfe⟩ := List.mem_filterMap.1 h
  cases e <;> simp_all

lemma runJobRetry_no_upd (m : JobMode) (i : Nat) (fb : Option String) (n : String)
    (jobs : List (Option JobMsg)) (u : TaskUpdate)
    (h : Eff.updateTask u ∈ (runJobRetry (Eff.spawn m i fb) n jobs).1) : False := by
  unfold runJobRetry at h
  rcases runJobRetryAux_mem _ _ _ _ _ _ _ h with h2 | h2 | ⟨q, h2⟩ <;> simp at h2

lemma upd_mem_updatesOf {u : TaskUpdate} {tr : List Eff} (h : Eff.updateTask u ∈ tr) :
    u ∈ updatesOf tr := by
  unfold updatesOf
  exact List.mem_filterMap.2 ⟨_, h, rfl⟩

lemma updatesOf_append (a b : List Eff) :
    updatesOf (a ++ b) = updatesOf a ++ updatesOf b := by
  simp [updatesOf, List.filterMap_append]

lemma qPollAux_updates_nil :
    ∀ (fuel interval total : Nat) (qr : List (Option QMsg))
      (qf : List (Option GhAnswers)),
      updatesOf (qPollAux fuel interval total qr qf).trace = [] := by
  intro fuel
  induction fuel with
  | zero =>
    intro interval total qr qf
    by_cases ht : total < PLAN_REVIEW_TIMEOUT <;> simp [qPollAux, ht, updatesOf]
  | succ fuel ih =>
    intro interval total qr qf
    by_cases ht : total < PLAN_REVIEW_TIMEOUT
    · rcases hr : (take1 qr).1 with _ | m
      · rcases hg : (take1 qf).1 with _ | a
        · simp only [qPollAux, ht, if_true, hr, hg]
          rw [updatesOf_append, ih]
          rfl
        · simp only [qPollAux, ht, if_true, hr, hg]
          rfl
      · simp only [qPollAux, ht, if_true, hr]
        rfl
    · simp [qPollAux, ht, updatesOf]

lemma pPollAux_updates_nil (cid : Int) :
    ∀ (fuel interval total : Nat) (pr : List (Option PMsg)) (re : List Bool)
      (fo : List (Option (String × Option String))),
      updatesOf (pPollAux cid fuel interval total pr re fo).trace = [] := by
  intro fuel
  induction fuel with
  | zero =>
    intro interval total pr re fo
    by_cases ht : total < PLAN_REVIEW_TIMEOUT <;> simp [pPollAux, ht, updatesOf]
  | succ fuel ih =>
    intro interval total pr re fo
    by_cases ht : total < PLAN_REVIEW_TIMEOUT
    · rcases hr : (take1 pr).1 with _ | m
      · by_cases hc : (cid != 0) = true
        · by_cases hR : (takeD false re).1 = true
          · simp only [pPollAux, ht, if_true, hr, hc, hR]
            rfl
          · have hR2 : (takeD false re).1 = false := by simpa using hR
            rcases hg : (take1 fo).1 with _ | at_
            · simp only [pPollAux, ht, if_true, hr, hc, hR2, hg, Bool.false_eq_true, if_false]
              rw [updatesOf_append, ih]
              rfl
            · simp only [pPollAux, ht, if_true, hr, hc, hR2, hg, Bool.false_eq_true, if_false]
              rfl
        · have hc2 : (cid != 0) = false := by simpa using hc
          rcases hg : (take1 fo).1 with _ | at_
          · simp only [pPollAux, ht, if_true, hr, hc2, hg, Bool.false_eq_true, if_false]
            rw [updatesOf_append, ih]
            rfl
          · simp only [pPollAux, ht, if_true, hr, hc2, hg, Bool.false_eq_true, if_false]
            rfl
      · simp only [pPollAux, ht, if_true, hr]
        rfl
    · simp [pPollAux, ht, updatesOf]

lemma runJobRetry_updates_nil (m : JobMode) (i : Nat) (fb : Option String)
    (n : String) (jobs : List (Option JobMsg)) :
    updatesOf (runJobRetry (Eff.spawn m i fb) n jobs).1 = [] := by
  rw [List.eq_nil_iff_forall_not_mem]
  intro u hu
  exact runJobRetry_no_upd m i fb n jobs u (mem_updatesOf hu)

lemma qPoll_updates_nil (qr : List (Option QMsg)) (qf : List (Option GhAnswers)) :
    updatesOf (qPoll qr qf).trace = [] :=
  qPollAux_updates_nil POLL_FUEL POLL_INITIAL 0 qr qf

lemma pPoll_updates_nil (cid : Int) (pr : List (Option PMsg)) (re : List Bool)
    (fo : List (Option (String × Option String))) :
    updatesOf (pPoll cid pr re fo).trace = [] :=
  pPollAux_updates_nil cid POLL_FUEL POLL_INITIAL 0 pr re fo

lemma ciLoopAux_updates_nil (pr : Option Int) :
    ∀ (cs : List CheckSt) (logs : List String) (jobs : List (Option JobMsg)) (it : Nat),
      updatesOf (ciLoopAux pr cs logs jobs it).trace = [] := by
  intro cs
  induction cs with
  | nil =>
    intro logs jobs it
    by_cases h : it < MAX_CI_ITERATIONS <;> simp [ciLoopAux, h, updatesOf]
  | cons c cs ih =>
    intro logs jobs it
    by_cases h : it < MAX_CI_ITERATIONS
    · cases c with
      | success =>
          simp only [ciLoopAux, h, if_true]
          rfl
      | pending =>
          simp only [ciLoopAux, h, if_true]
          rw [updatesOf_append, ih]
          rfl
      | failure =>
          rcases hj : (runJobRetry (Eff.spawn JobMode.fix (it + 1) (some (takeD "" logs).1))
              ("fix job (CI iteration " ++ toString (it + 1) ++ ")") jobs).2.2 with e | mm
          · simp only [ciLoopAux, h, if_true, hj]
            rw [updatesOf_append, runJobRetry_updates_nil]
            rfl
          · simp only [ciLoopAux, h, if_true, hj]
            rw [updatesOf_append, updatesOf_append, updatesOf_append, ih,
              runJobRetry_updates_nil]
            rfl
    · simp [ciLoopAux, h, updatesOf]

lemma reviewLoopAux_updates_status (prUrl : Option String) (prNumber : Option Int) :
    ∀ (polls : List PrSt) (pn : List Bool) (pf : List String)
      (jobs : List (Option JobMsg)) (nows : List Nat) (lastCheck fi : Nat)
      (u : TaskUpdate),
      u ∈ updatesOf
          (reviewLoopAux prUrl prNumber polls pn pf jobs nows lastCheck fi).trace →
        u.status ≠ TaskStatus.waiting_questions := by
  intro polls
  induction polls with
  | nil =>
    intro pn pf jobs nows lastCheck fi u hu
    simp [reviewLoopAux, updatesOf] at hu
  | cons p ps ih =>
    intro pn pf jobs nows lastCheck fi u hu
    cases p with
    | notFound => simp [reviewLoopAux, updatesOf] at hu
    | merged =>
        simp [reviewLoopAux, updatesOf] at hu
        subst hu
        decide
    | closed =>
        simp [reviewLoopAux, updatesOf] at hu
        subst hu
        decide
    | openPr =>
        by_cases hnew : (takeD false pn).1 = true
        · by_cases hfb : ((takeD "" pf).1 == "") = true
          · simp only [reviewLoopAux, hnew, hfb, if_true] at hu
            exact ih _ _ _ _ _ _ u hu
          · have hfb2 : ((takeD "" pf).1 == "") = false := by simpa using hfb
            rcases hj : (runJobRetry
                (Eff.spawn JobMode.feedback (fi + 1) (some (takeD "" pf).1))
                ("feedback job (iteration " ++ toString (fi + 1) ++ ")") jobs).2.2
              with e | mm
            · simp only [reviewLoopAux, hnew, hfb2, if_true, Bool.false_eq_true,
                if_false, hj] at hu
              rw [updatesOf_append, runJobRetry_updates_nil] at hu
              simp [updatesOf] at hu
              subst hu
              decide
            · simp only [reviewLoopAux, hnew, hfb2, if_true, Bool.false_eq_true,
                if_false, hj] at hu
              rw [updatesOf_append] at hu
              simp only [List.mem_append] at hu
              rcases hu with hu | hu
              · rw [updatesOf_append, updatesOf_append, runJobRetry_updates_nil] at hu
                simp [updatesOf] at hu
                rcases hu with hu | hu <;> (subst hu; simp)
              · exact ih _ _ _ _ _ _ u hu
        · have hnew2 : (takeD false pn).1 = false := by simpa using hnew
          simp only [reviewLoopAux, hnew2, Bool.false_eq_true, if_false] at hu
          exact ih _ _ _ _ _ _ u hu

lemma planLoopAux_updates_wq :
    ∀ (fuel it : Nat) (ptx : Option String) (ua : List (String × String)) (env : Env)
      (u : TaskUpdate),
      u ∈ updatesOf (planLoopAux fuel it ptx ua env).trace →
        u.status = TaskStatus.waiting_questions →
          ∃ qs, u.pendingQuestions = some qs ∧ qs ≠ [] := by
  intro fuel
  induction fuel with
  | zero =>
    intro it ptx ua env u hu
    simp [planLoopAux, updatesOf] at hu
  | succ fuel ih =>
    intro it ptx ua env u hu hst
    rcases hj : (runJobRetry (Eff.spawn JobMode.plan it (buildFeedbackContext it ptx ua))
        ("plan job (iteration " ++ toString it ++ ")") env.jobs).2.2 with e | m
    · simp only [planLoopAux, hj] at hu
      rw [runJobRetry_updates_nil] at hu
      simp at hu
    · by_cases hpt : truthyOptStr m.planText = true
      · by_cases hq : (m.questions == ([] : List Question)) = true
        · -- plan-review sub-phase
          rcases hp : (pPoll (takeD 0 env.planCommentIds).1 env.pRecv env.pReact
              env.pForge).out with mp | _ | ⟨a, t⟩ | _ | _
          · 
            rcases hd : planResponseDispatch mp.action mp.text with _ | _ | fb
            · 
              simp only [planLoopAux, hj, hpt, Bool.not_true, Bool.false_eq_true,
                if_false, hq, if_true, hp, hd] at hu
              simp only [updatesOf_append, runJobRetry_updates_nil, pPoll_updates_nil] at hu
              simp [updatesOf] at hu
              subst hu
              simp at hst
            · 
              simp only [planLoopAux, hj, hpt, Bool.not_true, Bool.false_eq_true,
                if_false, hq, if_true, hp, hd] at hu
              simp only [updatesOf_append, runJobRetry_updates_nil, pPoll_updates_nil] at hu
              simp [updatesOf] at hu
              rcases hu with hu | hu <;> (subst hu; simp at hst)
            · 
              simp only [planLoopAux, hj, hpt, Bool.not_true, Bool.false_eq_true,
                if_false, hq, if_true, hp, hd] at hu
              rw [updatesOf_append] at hu
              simp only [List.mem_append] at hu
              rcases hu with hu | hu
              · simp only [updatesOf_append, runJobRetry_updates_nil, pPoll_updates_nil] at hu
                simp [updatesOf] at hu
                subst hu
                simp at hst
              · exact ih _ _ _ _ u hu hst
          · 
            have hd : planResponseDispatch "approve" "" = PlanDecision.approved := by decide
            simp only [planLoopAux, hj, hpt, Bool.not_true, Bool.false_eq_true,
              if_false, hq, if_true, hp, hd] at hu
            simp only [updatesOf_append, runJobRetry_updates_nil, pPoll_updates_nil] at hu
            simp [updatesOf] at hu
            subst hu
            simp at hst
          · 
            rcases hd : planResponseDispatch a (t.getD "") with _ | _ | fb
            · 
              simp only [planLoopAux, hj, hpt, Bool.not_true, Bool.false_eq_true,
                if_false, hq, if_true, hp, hd] at hu
              simp only [updatesOf_append, runJobRetry_updates_nil, pPoll_updates_nil] at hu
              simp [updatesOf] at hu
              subst hu
              simp at hst
            · 
              simp only [planLoopAux, hj, hpt, Bool.not_true, Bool.false_eq_true,
                if_false, hq, if_true, hp, hd] at hu
              simp only [updatesOf_append, runJobRetry_updates_nil, pPoll_updates_nil] at hu
              simp [updatesOf] at hu
              rcases hu with hu | hu <;> (subst hu; simp at hst)
            · 
              simp only [planLoopAux, hj, hpt, Bool.not_true, Bool.false_eq_true,
                if_false, hq, if_true, hp, hd] at hu
              rw [updatesOf_append] at hu
              simp only [List.mem_append] at hu
              rcases hu with hu | hu
              · simp only [updatesOf_append, runJobRetry_updates_nil, pPoll_updates_nil] at hu
                simp [updatesOf] at hu
                subst hu
                simp at hst
              · exact ih _ _ _ _ u hu hst
          · 
            simp only [planLoopAux, hj, hpt, Bool.not_true, Bool.false_eq_true,
              if_false, hq, if_true, hp] at hu
            simp only [updatesOf_append, runJobRetry_updates_nil, pPoll_updates_nil] at hu
            simp [updatesOf] at hu
            subst hu
            simp at hst
          · 
            simp only [planLoopAux, hj, hpt, Bool.not_true, Bool.false_eq_true,
              if_false, hq, if_true, hp] at hu
            simp only [updatesOf_append, runJobRetry_updates_nil, pPoll_updates_nil] at hu
            simp [updatesOf] at hu
            subst hu
            simp at hst
        · -- question sub-phase
          have hq2 : (m.questions == ([] : List Question)) = false := by simpa using hq
          have hqs : m.questions ≠ [] := by simpa using hq2
          rcases hqp : (qPoll env.qRecv env.qForge).out with mq | a | _ | _
          · 
            by_cases hcan : (mq.action == "cancel") = true
            · simp only [planLoopAux, hj, hpt, Bool.not_true, Bool.false_eq_true,
                if_false, hq2, if_true, hqp, hcan] at hu
              simp only [updatesOf_append, runJobRetry_updates_nil, qPoll_updates_nil] at hu
              simp [updatesOf] at hu
              rcases hu with hu | hu
              · subst hu
                exact ⟨m.questions, rfl, hqs⟩
              · subst hu
                simp at hst
            · have hcan2 : (mq.action == "cancel") = false := by simpa using hcan
              simp only [planLoopAux, hj, hpt, Bool.not_true, Bool.false_eq_true,
                if_false, hq2, if_true, hqp, hcan2] at hu
              rw [updatesOf_append] at hu
              simp only [List.mem_append] at hu
              rcases hu with hu | hu
              · simp only [updatesOf_append, runJobRetry_updates_nil, qPoll_updates_nil] at hu
                simp [updatesOf] at hu
                rcases hu with hu | hu
                · subst hu
                  exact ⟨m.questions, rfl, hqs⟩
                · subst hu
                  simp at hst
              · exact ih _ _ _ _ u hu hst
          · 
            simp only [planLoopAux, hj, hpt, Bool.not_true, Bool.false_eq_true,
              if_false, hq2, if_true, hqp] at hu
            rw [updatesOf_append] at hu
            simp only [List.mem_append] at hu
            rcases hu with hu | hu
            · simp only [updatesOf_append, runJobRetry_updates_nil, qPoll_updates_nil] at hu
              simp [updatesOf] at hu
              rcases hu with hu | hu
              · subst hu
                exact ⟨m.questions, rfl, hqs⟩
              · subst hu
                simp at hst
            · exact ih _ _ _ _ u hu hst
          · 
            simp only [planLoopAux, hj, hpt, Bool.not_true, Bool.false_eq_true,
              if_false, hq2, if_true, hqp] at hu
            simp only [updatesOf_append, runJobRetry_updates_nil, qPoll_updates_nil] at hu
            simp [updatesOf] at hu
            subst hu
            exact ⟨m.questions, rfl, hqs⟩
          · 
            simp only [planLoopAux, hj, hpt, Bool.not_true, Bool.false_eq_true,
              if_false, hq2, if_true, hqp] at hu
            simp only [updatesOf_append, runJobRetry_updates_nil, qPoll_updates_nil] at hu
            simp [updatesOf] at hu
            subst hu
            exact ⟨m.questions, rfl, hqs⟩
      · have hpt2 : truthyOptStr m.planText = false := by simpa using hpt
        simp only [planLoopAux, hj, hpt2, Bool.not_false, if_true] at hu
        rw [runJobRetry_updates_nil] at hu
        simp at hu

lemma planningPhase_updates_wq (task : TaskRow) (env : Env) (fuel : Nat) (u : TaskUpdate)
    (hu : u ∈ updatesOf (planningPhase task env fuel).trace)
    (hst : u.status = TaskStatus.waiting_questions) :
    ∃ qs, u.pendingQuestions = some qs ∧ qs ≠ [] := by
  rcases hic : env.issueCreate with _ | ⟨inum, iurl⟩
  · simp only [planningPhase, hic] at hu
    simp [updatesOf] at hu
    subst hu
    simp at hst
  · rcases hpl : (planLoopAux fuel 1 none [] env).out with plan | _ | e
    · -- approved
      rcases hsi : (planLoopAux fuel 1 none [] env).env.startImpl with _ | im
      · simp only [planningPhase, hic, hpl, hsi] at hu
        simp only [updatesOf_append] at hu
        simp only [List.mem_append] at hu
        rcases hu with (hu | hu) | hu
        · simp [updatesOf] at hu
          rcases hu with hu | hu <;> (subst hu; simp at hst)
        · exact planLoopAux_updates_wq fuel 1 none [] env u hu hst
        · simp [updatesOf] at hu
          subst hu
          simp at hst
      · by_cases hca : (im.action == "cancel") = true
        · simp only [planningPhase, hic, hpl, hsi, hca, if_true] at hu
          simp only [updatesOf_append] at hu
          simp only [List.mem_append] at hu
          rcases hu with ((hu | hu) | hu) | hu
          · simp [updatesOf] at hu
            rcases hu with hu | hu <;> (subst hu; simp at hst)
          · exact planLoopAux_updates_wq fuel 1 none [] env u hu hst
          · simp [updatesOf] at hu
            subst hu
            simp at hst
          · simp [updatesOf] at hu
            subst hu
            simp at hst
        · have hca2 : (im.action == "cancel") = false := by simpa using hca
          simp only [planningPhase, hic, hpl, hsi, hca2, Bool.false_eq_true, if_false] at hu
          simp only [updatesOf_append] at hu
          simp only [List.mem_append] at hu
          rcases hu with ((hu | hu) | hu) | hu
          · simp [updatesOf] at hu
            rcases hu with hu | hu <;> (subst hu; simp at hst)
          · exact planLoopAux_updates_wq fuel 1 none [] env u hu hst
          · simp [updatesOf] at hu
            subst hu
            simp at hst
          · simp [updatesOf] at hu
    · -- cancelled
      simp only [planningPhase, hic, hpl] at hu
      simp only [updatesOf_append] at hu
      simp only [List.mem_append] at hu
      rcases hu with hu | hu
      · simp [updatesOf] at hu
        rcases hu with hu | hu <;> (subst hu; simp at hst)
      · exact planLoopAux_updates_wq fuel 1 none [] env u hu hst
    · -- raised
      simp only [planningPhase, hic, hpl] at hu
      simp only [updatesOf_append] at hu
      simp only [List.mem_append] at hu
      rcases hu with hu | hu
      · simp [updatesOf] at hu
        rcases hu with hu | hu <;> (subst hu; simp at hst)
      · exact planLoopAux_updates_wq fuel 1 none [] env u hu hst

lemma implementPhase_updates_wq (task : TaskRow) (env : Env) (inum : Option Int)
    (br : Option String) (u : TaskUpdate)
    (hu : u ∈ updatesOf (implementPhase task env inum br).trace) :
    u.status ≠ TaskStatus.waiting_questions := by
  by_cases hsp : task.skipPlan = true
  · rcases hj : (runJobRetry (Eff.spawn JobMode.implement 0 none)
        "implement job (skip plan)" env.jobs).2.2 with e | m
    · simp only [implementPhase, hsp, if_true, hj] at hu
      simp only [updatesOf_append, runJobRetry_updates_nil] at hu
      simp [updatesOf] at hu
      subst hu
      simp
    · by_cases hpu : truthyOptStr m.prUrl = true
      · rcases hpi : parseTrailingInt (m.prUrl.getD "") with _ | n
        · simp only [implementPhase, hsp, if_true, hj, hpu, Bool.not_true,
            Bool.false_eq_true, if_false, hpi] at hu
          simp only [updatesOf_append, runJobRetry_updates_nil] at hu
          simp [updatesOf] at hu
          subst hu
          simp
        · rcases hci : (ciLoopAux (some n) env.checks env.ciLogs
              (runJobRetry (Eff.spawn JobMode.implement 0 none)
                "implement job (skip plan)" env.jobs).2.1 0).out with _ | _ | e | _
          · 
            rcases hrv : (reviewLoopAux m.prUrl (some n) env.prPolls env.prNew
                env.prFeedback
                (ciLoopAux (some n) env.checks env.ciLogs
                  (runJobRetry (Eff.spawn JobMode.implement 0 none)
                    "implement job (skip plan)" env.jobs).2.1 0).jobs
                (takeD 0 env.nows).2 (takeD 0 env.nows).1 0).out
              with _ | _ | _ | e | _ <;>
            · simp only [implementPhase, hsp, if_true, hj, hpu, Bool.not_true,
                Bool.false_eq_true, if_false, hpi, Option.getD_some, hci, hrv] at hu
              simp only [updatesOf_append, runJobRetry_updates_nil,
                ciLoopAux_updates_nil] at hu
              simp only [List.append_nil, List.nil_append] at hu
              rw [List.mem_append] at hu
              rcases hu with hu | hu
              · simp [updatesOf] at hu
                rcases hu with hu | hu <;> (subst hu; simp)
              · exact reviewLoopAux_updates_status _ _ _ _ _ _ _ _ _ u hu
          all_goals
          · simp only [implementPhase, hsp, if_true, hj, hpu, Bool.not_true,
              Bool.false_eq_true, if_false, hpi, Option.getD_some, hci] at hu
            simp only [updatesOf_append, runJobRetry_updates_nil,
              ciLoopAux_updates_nil] at hu
            simp [updatesOf] at hu
            subst hu
            simp
      · have hpu2 : truthyOptStr m.prUrl = false := by simpa using hpu
        simp only [implementPhase, hsp, if_true, hj, hpu2, Bool.not_false] at hu
        simp only [updatesOf_append, runJobRetry_updates_nil] at hu
        simp [updatesOf] at hu
        subst hu
        simp
  · have hsp2 : task.skipPlan = false := by simpa using hsp
    rcases inum with _ | n0 <;>
      simp only [implementPhase, hsp2, Bool.false_eq_true, if_false] at hu
    rcases hj : (runJobRetry (Eff.spawn JobMode.implement 0 none)
        ("implement job (issue #" ++ "None" ++ ")") env.jobs).2.2 with e | m
    · simp only [hj] at hu
      simp only [updatesOf_append, runJobRetry_updates_nil] at hu
      simp [updatesOf] at hu
      subst hu
      simp
    · rcases hci : (ciLoopAux none env.checks env.ciLogs
          (runJobRetry (Eff.spawn JobMode.implement 0 none)
            ("implement job (issue #" ++ "None" ++ ")") env.jobs).2.1 0).out
        with _ | _ | e | _
      · rcases hrv : (reviewLoopAux none none env.prPolls env.prNew env.prFeedback
            (ciLoopAux none env.checks env.ciLogs
              (runJobRetry (Eff.spawn JobMode.implement 0 none)
                ("implement job (issue #" ++ "None" ++ ")") env.jobs).2.1 0).jobs
            (takeD 0 env.nows).2 (takeD 0 env.nows).1 0).out
          with _ | _ | _ | e | _ <;>
        · simp only [hj, Option.getD_some, hci, hrv] at hu
          simp only [updatesOf_append, runJobRetry_updates_nil,
            ciLoopAux_updates_nil] at hu
          simp only [List.append_nil, List.nil_append] at hu
          rw [List.mem_append] at hu
          rcases hu with hu | hu
          · simp [updatesOf] at hu
            rcases hu with hu | hu <;> (subst hu; simp)
          · exact reviewLoopAux_updates_status _ _ _ _ _ _ _ _ _ u hu
      all_goals
      · simp only [hj, Option.getD_some, hci] at hu
        simp only [updatesOf_append, runJobRetry_updates_nil,
          ciLoopAux_updates_nil] at hu
        simp [updatesOf] at hu
        subst hu
        simp
    rcases hj : (runJobRetry (Eff.spawn JobMode.implement 0 none)
        ("implement job (issue #" ++ toString n0 ++ ")") env.jobs).2.2 with e | m
    · simp only [hj] at hu
      simp only [updatesOf_append, runJobRetry_updates_nil] at hu
      simp [updatesOf] at hu
      subst hu
      simp
    · rcases hci : (ciLoopAux none env.checks env.ciLogs
          (runJobRetry (Eff.spawn JobMode.implement 0 none)
            ("implement job (issue #" ++ toString n0 ++ ")") env.jobs).2.1 0).out
        with _ | _ | e | _
      · rcases hrv : (reviewLoopAux none none env.prPolls env.prNew env.prFeedback
            (ciLoopAux none env.checks env.ciLogs
              (runJobRetry (Eff.spawn JobMode.implement 0 none)
                ("implement job (issue #" ++ toString n0 ++ ")") env.jobs).2.1 0).jobs
            (takeD 0 env.nows).2 (takeD 0 env.nows).1 0).out
          with _ | _ | _ | e | _ <;>
        · simp only [hj, Option.getD_some, hci, hrv] at hu
          simp only [updatesOf_append, runJobRetry_updates_nil,
            ciLoopAux_updates_nil] at hu
          simp only [List.append_nil, List.nil_append] at hu
          rw [List.mem_append] at hu
          rcases hu with hu | hu
          · simp [updatesOf] at hu
            rcases hu with hu | hu <;> (subst hu; simp)
          · exact reviewLoopAux_updates_status _ _ _ _ _ _ _ _ _ u hu
      all_goals
      · simp only [hj, Option.getD_some, hci] at hu
        simp only [updatesOf_append, runJobRetry_updates_nil,
          ciLoopAux_updates_nil] at hu
        simp [updatesOf] at hu
        subst hu
        simp

lemma workerRun_updates_wq (task : TaskRow) (env : Env) (fuel : Nat) :
    ∀ u ∈ updatesOf (workerRun task env fuel).trace,
      u.status = TaskStatus.waiting_questions →
        ∃ qs, u.pendingQuestions = some qs ∧ qs ≠ [] := by
  intro u hu hst
  by_cases hres : (truthyOptStr task.prUrl && truthyOptInt task.prNumber) = true
  · simp only [workerRun, hres, if_true] at hu
    rcases hout : (reviewLoopAux task.prUrl task.prNumber env.prPolls env.prNew
        env.prFeedback env.jobs env.nows task.createdAt 0).out with _ | _ | _ | er | _ <;>
      simp only [hout, failTrace] at hu <;>
      simp [updatesOf_append, List.mem_append, updatesOf] at hu
    · rcases hu with hu | ⟨a, ha, hfa⟩
      · subst hu
        simp at hst
      · have hm : u ∈ updatesOf (reviewLoopAux task.prUrl task.prNumber env.prPolls
            env.prNew env.prFeedback env.jobs env.nows task.createdAt 0).trace :=
          List.mem_filterMap.2 ⟨a, ha, hfa⟩
        exact absurd hst (reviewLoopAux_updates_status _ _ _ _ _ _ _ _ _ u hm)
    · rcases hu with hu | ⟨a, ha, hfa⟩
      · subst hu
        simp at hst
      · have hm : u ∈ updatesOf (reviewLoopAux task.prUrl task.prNumber env.prPolls
            env.prNew env.prFeedback env.jobs env.nows task.createdAt 0).trace :=
          List.mem_filterMap.2 ⟨a, ha, hfa⟩
        exact absurd hst (reviewLoopAux_updates_status _ _ _ _ _ _ _ _ _ u hm)
    · rcases hu with hu | ⟨a, ha, hfa⟩
      · subst hu
        simp at hst
      · have hm : u ∈ updatesOf (reviewLoopAux task.prUrl task.prNumber env.prPolls
            env.prNew env.prFeedback env.jobs env.nows task.createdAt 0).trace :=
          List.mem_filterMap.2 ⟨a, ha, hfa⟩
        exact absurd hst (reviewLoopAux_updates_status _ _ _ _ _ _ _ _ _ u hm)
    · rcases hu with hu | ⟨a, ha, hfa⟩ | hu
      · subst hu
        simp at hst
      · have hm : u ∈ updatesOf (reviewLoopAux task.prUrl task.prNumber env.prPolls
            env.prNew env.prFeedback env.jobs env.nows task.createdAt 0).trace :=
          List.mem_filterMap.2 ⟨a, ha, hfa⟩
        exact absurd hst (reviewLoopAux_updates_status _ _ _ _ _ _ _ _ _ u hm)
      · subst hu
        simp at hst
    · rcases hu with hu | ⟨a, ha, hfa⟩
      · subst hu
        simp at hst
      · have hm : u ∈ updatesOf (reviewLoopAux task.prUrl task.prNumber env.prPolls
            env.prNew env.prFeedback env.jobs env.nows task.createdAt 0).trace :=
          List.mem_filterMap.2 ⟨a, ha, hfa⟩
        exact absurd hst (reviewLoopAux_updates_status _ _ _ _ _ _ _ _ _ u hm)
  · have hres2 : (truthyOptStr task.prUrl && truthyOptInt task.prNumber) = false := by
      simpa using hres
    by_cases hsp : task.skipPlan = true
    · rcases hio : (implementPhase task env none none).out with s | e <;>
        simp only [workerRun, hres2, Bool.false_eq_true, if_false, hsp, if_true,
          hio, failTrace] at hu <;>
        simp [updatesOf_append, List.mem_append, updatesOf] at hu
      · have hm : u ∈ updatesOf (implementPhase task env none none).trace :=
          List.mem_filterMap.2 hu
        exact absurd hst (implementPhase_updates_wq task env none none u hm)
      · rcases hu with ⟨a, ha, hfa⟩ | hu
        · have hm : u ∈ updatesOf (implementPhase task env none none).trace :=
            List.mem_filterMap.2 ⟨a, ha, hfa⟩
          exact absurd hst (implementPhase_updates_wq task env none none u hm)
        · subst hu
          simp at hst
    · have hsp2 : task.skipPlan = false := by simpa using hsp
      rcases hpo : (planningPhase task env fuel).out with ⟨inum2, iurl2, br2, plan2⟩ | s | e
      · -- proceed
        rcases hio : (implementPhase task (planningPhase task env fuel).env
            (some inum2) (some br2)).out with s | e <;>
          simp only [workerRun, hres2, Bool.false_eq_true, if_false, hsp2, hpo,
            hio, failTrace] at hu <;>
          simp [updatesOf_append, List.mem_append, updatesOf] at hu
        · rcases hu with ⟨a, ha, hfa⟩ | ⟨a, ha, hfa⟩
          · have hm : u ∈ updatesOf (planningPhase task env fuel).trace :=
              List.mem_filterMap.2 ⟨a, ha, hfa⟩
            exact planningPhase_updates_wq task env fuel u hm hst
          · have hm : u ∈ updatesOf (implementPhase task (planningPhase task env fuel).env
                (some inum2) (some br2)).trace :=
              List.mem_filterMap.2 ⟨a, ha, hfa⟩
            exact absurd hst (implementPhase_updates_wq task _ _ _ u hm)
        · rcases hu with ⟨a, ha, hfa⟩ | ⟨a, ha, hfa⟩ | hu
          · have hm : u ∈ updatesOf (planningPhase task env fuel).trace :=
              List.mem_filterMap.2 ⟨a, ha, hfa⟩
            exact planningPhase_updates_wq task env fuel u hm hst
          · have hm : u ∈ updatesOf (implementPhase task (planningPhase task env fuel).env
                (some inum2) (some br2)).trace :=
              List.mem_filterMap.2 ⟨a, ha, hfa⟩
            exact absurd hst (implementPhase_updates_wq task _ _ _ u hm)
          · subst hu
            simp at hst
      · -- planning finished
        simp only [workerRun, hres2, Bool.false_eq_true, if_false, hsp2, hpo] at hu
        simp [updatesOf_append, List.mem_append, updatesOf] at hu
        have hm : u ∈ updatesOf (planningPhase task env fuel).trace :=
          List.mem_filterMap.2 hu
        exact planningPhase_updates_wq task env fuel u hm hst
      · -- planning raised
        simp only [workerRun, hres2, Bool.false_eq_true, if_false, hsp2, hpo,
          failTrace] at hu
        simp [updatesOf_append, List.mem_append, updatesOf] at hu
        rcases hu with ⟨a, ha, hfa⟩ | hu
        · have hm : u ∈ updatesOf (planningPhase task env fuel).trace :=
            List.mem_filterMap.2 ⟨a, ha, hfa⟩
          exact planningPhase_updates_wq task env fuel u hm hst
        · subst hu
          simp at hst

lemma scanl_wq :
    ∀ (us : List TaskUpdate),
      (∀ u ∈ us, u.status = TaskStatus.waiting_questions →
        ∃ qs, u.pendingQuestions = some qs ∧ qs ≠ []) →
      ∀ (init : TaskRow),
        (init.status = TaskStatus.waiting_questions → init.pendingQuestions ≠ []) →
        ∀ s ∈ us.scanl applyTaskUpdate init,
          s.status = TaskStatus.waiting_questions → s.pendingQuestions ≠ [] := by
  intro us
  induction us with
  | nil =>
    intro _ init hinit s hs
    simp [List.scanl] at hs
    subst hs
    exact hinit
  | cons u us ih =>
    intro hus init hinit s hs
    simp only [List.scanl, List.mem_cons] at hs
    rcases hs with rfl | hs
    · exact hinit
    · refine ih (fun v hv => hus v (List.mem_cons_of_mem _ hv)) _ ?_ s hs
      intro happ
      have hu : u.status = TaskStatus.waiting_questions := by
        simpa [applyTaskUpdate] using happ
      obtain ⟨qs, hq, hne⟩ := hus u (List.mem_cons_self u us) hu
      simpa [applyTaskUpdate, hq] using hne

/-- C7: counterexample.  An in-app cancel during the question sub-phase
(worker.py lines 1000-1014) updates only `status` — `pending_questions`
is not cleared.  On a run whose plan job returns question "q1" and whose
question wait receives `{action: "cancel"}`, some persisted state has a
non-empty `pending_questions` while its status is not
`waiting_questions`; indeed the final state is `cancelled` with
`pending_questions` still `["q1"]`. -/
theorem C7_pending_questions_counterexample :
    ((dbStates {} (workerRun {}
        { jobs := [some (jobOk (some "P") ["q1"])],
          qRecv := [some { action := "cancel" }] } 2).trace).any
      fun s => s.pendingQuestions != [] && s.status != TaskStatus.waiting_questions) = true ∧
    ((dbStates {} (workerRun {}
        { jobs := [some (jobOk (some "P") ["q1"])],
          qRecv := [some { action := "cancel" }] } 2).trace).getLast?.map
      fun s => (s.status, s.pendingQuestions))
      = some (TaskStatus.cancelled, ["q1"]) := by decide

/-- C7, amended: only one direction of the claimed equivalence holds.  In
every persisted state of any workflow run (from any initial row that
itself satisfies the direction), `status = waiting_questions` implies
`pending_questions` is non-empty: the only update that writes
`waiting_questions` (worker.py lines 932-940) always stores the plan
job's non-empty question list alongside it.  The converse is false (see
the counterexample): transitions out of `waiting_questions` can leave
`pending_questions` non-empty. -/
theorem C7_pending_questions_amended (task : TaskRow) (env : Env) (fuel : Nat)
    (hinit : task.status = TaskStatus.waiting_questions → task.pendingQuestions ≠ []) :
    ∀ s ∈ dbStates task (workerRun task env fuel).trace,
      s.status = TaskStatus.waiting_questions → s.pendingQuestions ≠ [] := by
  unfold dbStates
  exact scanl_wq _ (workerRun_updates_wq task env fuel) task hinit

/-- C7 witness: the amended statement at a concrete pending task and the
counterexample's environment. -/
theorem C7_pending_questions_amended_witness :
    (({} : TaskRow).status = TaskStatus.waiting_questions →
      ({} : TaskRow).pendingQuestions ≠ []) ∧
    ∀ s ∈ dbStates {} (workerRun {}
        { jobs := [some (jobOk (some "P") ["q1"])],
          qRecv := [some { action := "cancel" }] } 2).trace,
      s.status = TaskStatus.waiting_questions → s.pendingQuestions ≠ [] :=
  ⟨by decide,
   C7_pending_questions_amended {}
     { jobs := [some (jobOk (some "P") ["q1"])],
       qRecv := [some { action := "cancel" }] } 2 (by decide)⟩

/-- C8: counterexample.  Cancelling during `waiting_plan_review`
(worker.py lines 1151-1165) posts `❌ Plan cancelled by user.` — not the
claimed `❌ Task cancelled by user.` (the latter is the question-phase
cancel message, line 1005).  The run still terminates `cancelled`. -/
theorem C8_plan_cancel_counterexample :
    (workerRun {}
      { jobs := [some (jobOk (some "P"))], planCommentIds := [5],
        pRecv := [some { action := "cancel" }] } 2).status = "cancelled" ∧
    Eff.comment "❌ Task cancelled by user." ∉
      (workerRun {}
        { jobs := [some (jobOk (some "P"))], planCommentIds := [5],
          pRecv := [some { action := "cancel" }] } 2).trace ∧
    Eff.comment "❌ Plan cancelled by user." ∈
      (workerRun {}
        { jobs := [some (jobOk (some "P"))], planCommentIds := [5],
          pRecv := [some { action := "cancel" }] } 2).trace := by decide

/-- C8, amended: if a `plan_response` with action `"cancel"` (any text)
is received while the task is in `waiting_plan_review`, the task reaches
terminal status `cancelled`, the planning issue is closed right after a
comment matching `❌ Plan cancelled by user.`, and no executor job beyond
the single plan job already launched is spawned — for every continuation
of the scripted environment. -/
theorem C8_plan_cancel_amended (jr : List (Option JobMsg)) (pc : List Int)
    (pr : List (Option PMsg)) (t : String) :
    (workerRun {}
      { jobs := some (jobOk (some "P")) :: jr, planCommentIds := pc,
        pRecv := some { action := "cancel", text := t } :: pr } 2).status
      = "cancelled" ∧
    countSpawns (workerRun {}
      { jobs := some (jobOk (some "P")) :: jr, planCommentIds := pc,
        pRecv := some { action := "cancel", text := t } :: pr } 2).trace = 1 ∧
    ((updatesOf (workerRun {}
      { jobs := some (jobOk (some "P")) :: jr, planCommentIds := pc,
        pRecv := some { action := "cancel", text := t } :: pr } 2).trace).getLast?.map
      fun u => u.status) = some TaskStatus.cancelled ∧
    (workerRun {}
      { jobs := some (jobOk (some "P")) :: jr, planCommentIds := pc,
        pRecv := some { action := "cancel", text := t } :: pr } 2).trace.drop 13 =
      [Eff.comment "❌ Plan cancelled by user.", Eff.closeIssue,
       Eff.notify "cancelled", Eff.cleanup] := by
  refine ⟨rfl, rfl, rfl, rfl⟩

/-- C10: every `plan_response` in the plan-review wait whose action is
neither an approval (`approve`/`lgtm`/`looks good`, case-insensitively)
nor `"cancel"` is dispatched as a revision with feedback
`text or action` (worker.py lines 1168-1182) — no action value is
rejected or ignored; a non-empty revision feedback is handed verbatim to
the next plan job as its feedback context, and a concrete revision run
posts the revision acknowledgment and re-runs the plan job (iteration 2)
with the feedback. -/
theorem C10_revision_dispatch :
    (∀ a t, isPlanApproval a = false → (a == "cancel") = false →
      planResponseDispatch a t = .revise (if t == "" then a else t)) ∧
    (∀ fb, (fb == "") = false → buildFeedbackContext 2 (some fb) [] = some fb) ∧
    (Eff.spawn .plan 2 (some "use system colors") ∈
      (workerRun {}
        { jobs := [some (jobOk (some "P")), some (jobOk (some "P2"))],
          planCommentIds := [5, 6],
          pRecv := [some { action := "use system colors", text := "" },
                    some { action := "cancel" }] } 2).trace ∧
     Eff.comment "📝 **Revision requested:**\n> use system colors\n\nRegenerating plan..."
       ∈ (workerRun {}
        { jobs := [some (jobOk (some "P")), some (jobOk (some "P2"))],
          planCommentIds := [5, 6],
          pRecv := [some { action := "use system colors", text := "" },
                    some { action := "cancel" }] } 2).trace ∧
     (workerRun {}
        { jobs := [some (jobOk (some "P")), some (jobOk (some "P2"))],
          planCommentIds := [5, 6],
          pRecv := [some { action := "use system colors", text := "" },
                    some { action := "cancel" }] } 2).status = "cancelled") := by
  refine ⟨?_, ?_, by decide, by decide, by decide⟩
  · intro a t h1 h2
    simp [planResponseDispatch, h1, h2]
  · intro fb h
    simp [buildFeedbackContext, truthyOptStr, h]

/-- C10 witness: the dispatch and feedback-context clauses at concrete
inputs. -/
theorem C10_revision_dispatch_witness :
    (isPlanApproval "use system colors" = false ∧
     ("use system colors" == "cancel") = false ∧
     planResponseDispatch "use system colors" "" = .revise "use system colors") ∧
    (("p" == "") = false ∧ buildFeedbackContext 2 (some "p") [] = some "p") :=
  ⟨⟨by decide, by decide,
    C10_revision_dispatch.1 "use system colors" "" (by decide) (by decide)⟩,
   ⟨by decide, C10_revision_dispatch.2.1 "p" (by decide)⟩⟩

lemma reviewLoopAux_updates_prNumber (prUrl : Option String) :
    ∀ (polls : List PrSt) (pn : List Bool) (pf : List String)
      (jobs : List (Option JobMsg)) (nows : List Nat) (lastCheck fi : Nat)
      (u : TaskUpdate),
      u ∈ updatesOf
          (reviewLoopAux prUrl none polls pn pf jobs nows lastCheck fi).trace →
        u.prNumber = none := by
  intro polls
  induction polls with
  | nil =>
    intro pn pf jobs nows lastCheck fi u hu
    simp [reviewLoopAux, updatesOf] at hu
  | cons p ps ih =>
    intro pn pf jobs nows lastCheck fi u hu
    cases p with
    | notFound => simp [reviewLoopAux, updatesOf] at hu
    | merged =>
        simp [reviewLoopAux, updatesOf] at hu
        subst hu
        rfl
    | closed =>
        simp [reviewLoopAux, updatesOf] at hu
        subst hu
        rfl
    | openPr =>
        by_cases hnew : (takeD false pn).1 = true
        · by_cases hfb : ((takeD "" pf).1 == "") = true
          · simp only [reviewLoopAux, hnew, hfb, if_true] at hu
            exact ih _ _ _ _ _ _ u hu
          · have hfb2 : ((takeD "" pf).1 == "") = false := by simpa using hfb
            rcases hj : (runJobRetry
                (Eff.spawn JobMode.feedback (fi + 1) (some (takeD "" pf).1))
                ("feedback job (iteration " ++ toString (fi + 1) ++ ")") jobs).2.2
              with e | mm
            · simp only [reviewLoopAux, hnew, hfb2, if_true, Bool.false_eq_true,
                if_false, hj] at hu
              rw [updatesOf_append, runJobRetry_updates_nil] at hu
              simp [updatesOf] at hu
              subst hu
              rfl
            · simp only [reviewLoopAux, hnew, hfb2, if_true, Bool.false_eq_true,
                if_false, hj] at hu
              rw [updatesOf_append] at hu
              simp only [List.mem_append] at hu
              rcases hu with hu | hu
              · rw [updatesOf_append, updatesOf_append, runJobRetry_updates_nil] at hu
                simp [updatesOf] at hu
                rcases hu with hu | hu <;> (subst hu; rfl)
              · exact ih _ _ _ _ _ _ u hu
        · have hnew2 : (takeD false pn).1 = false := by simpa using hnew
          simp only [reviewLoopAux, hnew2, Bool.false_eq_true, if_false] at hu
          exact ih _ _ _ _ _ _ u hu
lemma planLoopAux_updates_prNumber :
    ∀ (fuel it : Nat) (ptx : Option String) (ua : List (String × String)) (env : Env)
      (u : TaskUpdate),
      u ∈ updatesOf (planLoopAux fuel it ptx ua env).trace →
        u.prNumber = none := by
  intro fuel
  induction fuel with
  | zero =>
    intro it ptx ua env u hu
    simp [planLoopAux, updatesOf] at hu
  | succ fuel ih =>
    intro it ptx ua env u hu
    rcases hj : (runJobRetry (Eff.spawn JobMode.plan it (buildFeedbackContext it ptx ua))
        ("plan job (iteration " ++ toString it ++ ")") env.jobs).2.2 with e | m
    · simp only [planLoopAux, hj] at hu
      rw [runJobRetry_updates_nil] at hu
      simp at hu
    · by_cases hpt : truthyOptStr m.planText = true
      · by_cases hq : (m.questions == ([] : List Question)) = true
        · -- plan-review sub-phase
          rcases hp : (pPoll (takeD 0 env.planCommentIds).1 env.pRecv env.pReact
              env.pForge).out with mp | _ | ⟨a, t⟩ | _ | _
          · 
            rcases hd : planResponseDispatch mp.action mp.text with _ | _ | fb
            · 
              simp only [planLoopAux, hj, hpt, Bool.not_true, Bool.false_eq_true,
                if_false, hq, if_true, hp, hd] at hu
              simp only [updatesOf_append, runJobRetry_updates_nil, pPoll_updates_nil] at hu
              simp [updatesOf] at hu
              subst hu
              rfl
            · 
              simp only [planLoopAux, hj, hpt, Bool.not_true, Bool.false_eq_true,
                if_false, hq, if_true, hp, hd] at hu
              simp only [updatesOf_append, runJobRetry_updates_nil, pPoll_updates_nil] at hu
              simp [updatesOf] at hu
              rcases hu with hu | hu <;> (subst hu; rfl)
            · 
              simp only [planLoopAux, hj, hpt, Bool.not_true, Bool.false_eq_true,
                if_false, hq, if_true, hp, hd] at hu
              rw [updatesOf_append] at hu
              simp only [List.mem_append] at hu
              rcases hu with hu | hu
              · simp only [updatesOf_append, runJobRetry_updates_nil, pPoll_updates_nil] at hu
                simp [updatesOf] at hu
                subst hu
                rfl
              · exact ih _ _ _ _ u hu
          · 
            have hd : planResponseDispatch "approve" "" = PlanDecision.approved := by decide
            simp only [planLoopAux, hj, hpt, Bool.not_true, Bool.false_eq_true,
              if_false, hq, if_true, hp, hd] at hu
            simp only [updatesOf_append, runJobRetry_updates_nil, pPoll_updates_nil] at hu
            simp [updatesOf] at hu
            subst hu
            rfl
          · 
            rcases hd : planResponseDispatch a (t.getD "") with _ | _ | fb
            · 
              simp only [planLoopAux, hj, hpt, Bool.not_true, Bool.false_eq_true,
                if_false, hq, if_true, hp, hd] at hu
              simp only [updatesOf_append, runJobRetry_updates_nil, pPoll_updates_nil] at hu
              simp [updatesOf] at hu
              subst hu
              rfl
            · 
              simp only [planLoopAux, hj, hpt, Bool.not_true, Bool.false_eq_true,
                if_false, hq, if_true, hp, hd] at hu
              simp only [updatesOf_append, runJobRetry_updates_nil, pPoll_updates_nil] at hu
              simp [updatesOf] at hu
              rcases hu with hu | hu <;> (subst hu; rfl)
            · 
              simp only [planLoopAux, hj, hpt, Bool.not_true, Bool.false_eq_true,
                if_false, hq, if_true, hp, hd] at hu
              rw [updatesOf_append] at hu
              simp only [List.mem_append] at hu
              rcases hu with hu | hu
              · simp only [updatesOf_append, runJobRetry_updates_nil, pPoll_updates_nil] at hu
                simp [updatesOf] at hu
                subst hu
                rfl
              · exact ih _ _ _ _ u hu
          · 
            simp only [planLoopAux, hj, hpt, Bool.not_true, Bool.false_eq_true,
              if_false, hq, if_true, hp] at hu
            simp only [updatesOf_append, runJobRetry_updates_nil, pPoll_updates_nil] at hu
            simp [updatesOf] at hu
            subst hu
            rfl
          · 
            simp only [planLoopAux, hj, hpt, Bool.not_true, Bool.false_eq_true,
              if_false, hq, if_true, hp] at hu
            simp only [updatesOf_append, runJobRetry_updates_nil, pPoll_updates_nil] at hu
            simp [updatesOf] at hu
            subst hu
            rfl
        · -- question sub-phase
          have hq2 : (m.questions == ([] : List Question)) = false := by simpa using hq
          rcases hqp : (qPoll env.qRecv env.qForge).out with mq | a | _ | _
          · 
            by_cases hcan : (mq.action == "cancel") = true
            · simp only [planLoopAux, hj, hpt, Bool.not_true, Bool.false_eq_true,
                if_false, hq2, if_true, hqp, hcan] at hu
              simp only [updatesOf_append, runJobRetry_updates_nil, qPoll_updates_nil] at hu
              simp [updatesOf] at hu
              rcases hu with hu | hu <;> (subst hu; rfl)
            · have hcan2 : (mq.action == "cancel") = false := by simpa using hcan
              simp only [planLoopAux, hj, hpt, Bool.not_true, Bool.false_eq_true,
                if_false, hq2, if_true, hqp, hcan2] at hu
              rw [updatesOf_append] at hu
              simp only [List.mem_append] at hu
              rcases hu with hu | hu
              · simp only [updatesOf_append, runJobRetry_updates_nil, qPoll_updates_nil] at hu
                simp [updatesOf] at hu
                rcases hu with hu | hu <;> (subst hu; rfl)
              · exact ih _ _ _ _ u hu
          · 
            simp only [planLoopAux, hj, hpt, Bool.not_true, Bool.false_eq_true,
              if_false, hq2, if_true, hqp] at hu
            rw [updatesOf_append] at hu
            simp only [List.mem_append] at hu
            rcases hu with hu | hu
            · simp only [updatesOf_append, runJobRetry_updates_nil, qPoll_updates_nil] at hu
              simp [updatesOf] at hu
              rcases hu with hu | hu <;> (subst hu; rfl)
            · exact ih _ _ _ _ u hu
          · 
            simp only [planLoopAux, hj, hpt, Bool.not_true, Bool.false_eq_true,
              if_false, hq2, if_true, hqp] at hu
            simp only [updatesOf_append, runJobRetry_updates_nil, qPoll_updates_nil] at hu
            simp [updatesOf] at hu
            subst hu
            rfl
          · 
            simp only [planLoopAux, hj, hpt, Bool.not_true, Bool.false_eq_true,
              if_false, hq2, if_true, hqp] at hu
            simp only [updatesOf_append, runJobRetry_updates_nil, qPoll_updates_nil] at hu
            simp [updatesOf] at hu
            subst hu
            rfl
      · have hpt2 : truthyOptStr m.planText = false := by simpa using hpt
        simp only [planLoopAux, hj, hpt2, Bool.not_false, if_true] at hu
        rw [runJobRetry_updates_nil] at hu
        simp at hu
lemma planningPhase_updates_prNumber (task : TaskRow) (env : Env) (fuel : Nat) (u : TaskUpdate)
    (hu : u ∈ updatesOf (planningPhase task env fuel).trace) :
    u.prNumber = none := by
  rcases hic : env.issueCreate with _ | ⟨inum, iurl⟩
  · simp only [planningPhase, hic] at hu
    simp [updatesOf] at hu
    subst hu
    rfl
  · rcases hpl : (planLoopAux fuel 1 none [] env).out with plan | _ | e
    · -- approved
      rcases hsi : (planLoopAux fuel 1 none [] env).env.startImpl with _ | im
      · simp only [planningPhase, hic, hpl, hsi] at hu
        simp only [updatesOf_append] at hu
        simp only [List.mem_append] at hu
        rcases hu with (hu | hu) | hu
        · simp [updatesOf] at hu
          rcases hu with hu | hu <;> (subst hu; rfl)
        · exact planLoopAux_updates_prNumber fuel 1 none [] env u hu
        · simp [updatesOf] at hu
          subst hu
          rfl
      · by_cases hca : (im.action == "cancel") = true
        · simp only [planningPhase, hic, hpl, hsi, hca, if_true] at hu
          simp only [updatesOf_append] at hu
          simp only [List.mem_append] at hu
          rcases hu with ((hu | hu) | hu) | hu
          · simp [updatesOf] at hu
            rcases hu with hu | hu <;> (subst hu; rfl)
          · exact planLoopAux_updates_prNumber fuel 1 none [] env u hu
          · simp [updatesOf] at hu
            subst hu
            rfl
          · simp [updatesOf] at hu
            subst hu
            rfl
        · have hca2 : (im.action == "cancel") = false := by simpa using hca
          simp only [planningPhase, hic, hpl, hsi, hca2, Bool.false_eq_true, if_false] at hu
          simp only [updatesOf_append] at hu
          simp only [List.mem_append] at hu
          rcases hu with ((hu | hu) | hu) | hu
          · simp [updatesOf] at hu
            rcases hu with hu | hu <;> (subst hu; rfl)
          · exact planLoopAux_updates_prNumber fuel 1 none [] env u hu
          · simp [updatesOf] at hu
            subst hu
            rfl
          · simp [updatesOf] at hu
    · -- cancelled
      simp only [planningPhase, hic, hpl] at hu
      simp only [updatesOf_append] at hu
      simp only [List.mem_append] at hu
      rcases hu with hu | hu
      · simp [updatesOf] at hu
        rcases hu with hu | hu <;> (subst hu; rfl)
      · exact planLoopAux_updates_prNumber fuel 1 none [] env u hu
    · -- raised
      simp only [planningPhase, hic, hpl] at hu
      simp only [updatesOf_append] at hu
      simp only [List.mem_append] at hu
      rcases hu with hu | hu
      · simp [updatesOf] at hu
        rcases hu with hu | hu <;> (subst hu; rfl)
      · exact planLoopAux_updates_prNumber fuel 1 none [] env u hu

lemma implementPhase_updates_prNumber (task : TaskRow) (env : Env) (inum : Option Int)
    (br : Option String) (u : TaskUpdate) (hsp2 : task.skipPlan = false)
    (hu : u ∈ updatesOf (implementPhase task env inum br).trace) :
    u.prNumber = none := by
  rcases inum with _ | n0 <;>
    simp only [implementPhase, hsp2, Bool.false_eq_true, if_false] at hu
  rcases hj : (runJobRetry (Eff.spawn JobMode.implement 0 none)
      ("implement job (issue #" ++ "None" ++ ")") env.jobs).2.2 with e | m
  · simp only [hj] at hu
    simp only [updatesOf_append, runJobRetry_updates_nil] at hu
    simp [updatesOf] at hu
    subst hu
    simp
  · rcases hci : (ciLoopAux none env.checks env.ciLogs
        (runJobRetry (Eff.spawn JobMode.implement 0 none)
          ("implement job (issue #" ++ "None" ++ ")") env.jobs).2.1 0).out
      with _ | _ | e | _
    · rcases hrv : (reviewLoopAux none none env.prPolls env.prNew env.prFeedback
          (ciLoopAux none env.checks env.ciLogs
            (runJobRetry (Eff.spawn JobMode.implement 0 none)
              ("implement job (issue #" ++ "None" ++ ")") env.jobs).2.1 0).jobs
          (takeD 0 env.nows).2 (takeD 0 env.nows).1 0).out
        with _ | _ | _ | e | _ <;>
      · simp only [hj, Option.getD_some, hci, hrv] at hu
        simp only [updatesOf_append, runJobRetry_updates_nil,
          ciLoopAux_updates_nil] at hu
        simp only [List.append_nil, List.nil_append] at hu
        rw [List.mem_append] at hu
        rcases hu with hu | hu
        · simp [updatesOf] at hu
          rcases hu with hu | hu <;> (subst hu; rfl)
        · exact reviewLoopAux_updates_prNumber _ _ _ _ _ _ _ _ u hu
    all_goals
    · simp only [hj, Option.getD_some, hci] at hu
      simp only [updatesOf_append, runJobRetry_updates_nil,
        ciLoopAux_updates_nil] at hu
      simp [updatesOf] at hu
      subst hu
      rfl
  rcases hj : (runJobRetry (Eff.spawn JobMode.implement 0 none)
      ("implement job (issue #" ++ toString n0 ++ ")") env.jobs).2.2 with e | m
  · simp only [hj] at hu
    simp only [updatesOf_append, runJobRetry_updates_nil] at hu
    simp [updatesOf] at hu
    subst hu
    simp
  · rcases hci : (ciLoopAux none env.checks env.ciLogs
        (runJobRetry (Eff.spawn JobMode.implement 0 none)
          ("implement job (issue #" ++ toString n0 ++ ")") env.jobs).2.1 0).out
      with _ | _ | e | _
    · rcases hrv : (reviewLoopAux none none env.prPolls env.prNew env.prFeedback
          (ciLoopAux none env.checks env.ciLogs
            (runJobRetry (Eff.spawn JobMode.implement 0 none)
              ("implement job (issue #" ++ toString n0 ++ ")") env.jobs).2.1 0).jobs
          (takeD 0 env.nows).2 (takeD 0 env.nows).1 0).out
        with _ | _ | _ | e | _ <;>
      · simp only [hj, Option.getD_some, hci, hrv] at hu
        simp only [updatesOf_append, runJobRetry_updates_nil,
          ciLoopAux_updates_nil] at hu
        simp only [List.append_nil, List.nil_append] at hu
        rw [List.mem_append] at hu
        rcases hu with hu | hu
        · simp [updatesOf] at hu
          rcases hu with hu | hu <;> (subst hu; rfl)
        · exact reviewLoopAux_updates_prNumber _ _ _ _ _ _ _ _ u hu
    all_goals
    · simp only [hj, Option.getD_some, hci] at hu
      simp only [updatesOf_append, runJobRetry_updates_nil,
        ciLoopAux_updates_nil] at hu
      simp [updatesOf] at hu
      subst hu
      rfl

lemma workerRun_updates_prNumber (task : TaskRow) (env : Env) (fuel : Nat)
    (hres2 : (truthyOptStr task.prUrl && truthyOptInt task.prNumber) = false)
    (hsp2 : task.skipPlan = false) :
    ∀ u ∈ updatesOf (workerRun task env fuel).trace, u.prNumber = none := by
  intro u hu
  rcases hpo : (planningPhase task env fuel).out with ⟨inum2, iurl2, br2, plan2⟩ | s | e
  · rcases hio : (implementPhase task (planningPhase task env fuel).env
        (some inum2) (some br2)).out with s | e <;>
      simp only [workerRun, hres2, Bool.false_eq_true, if_false, hsp2, hpo,
        hio, failTrace] at hu <;>
      simp [updatesOf_append, List.mem_append, updatesOf] at hu
    · rcases hu with ⟨a, ha, hfa⟩ | ⟨a, ha, hfa⟩
      · have hm : u ∈ updatesOf (planningPhase task env fuel).trace :=
          List.mem_filterMap.2 ⟨a, ha, hfa⟩
        exact planningPhase_updates_prNumber task env fuel u hm
      · have hm : u ∈ updatesOf (implementPhase task (planningPhase task env fuel).env
            (some inum2) (some br2)).trace :=
          List.mem_filterMap.2 ⟨a, ha, hfa⟩
        exact implementPhase_updates_prNumber task _ _ _ u hsp2 hm
    · rcases hu with ⟨a, ha, hfa⟩ | ⟨a, ha, hfa⟩ | hu
      · have hm : u ∈ updatesOf (planningPhase task env fuel).trace :=
          List.mem_filterMap.2 ⟨a, ha, hfa⟩
        exact planningPhase_updates_prNumber task env fuel u hm
      · have hm : u ∈ updatesOf (implementPhase task (planningPhase task env fuel).env
            (some inum2) (some br2)).trace :=
          List.mem_filterMap.2 ⟨a, ha, hfa⟩
        exact implementPhase_updates_prNumber task _ _ _ u hsp2 hm
      · subst hu
        rfl
  · simp only [workerRun, hres2, Bool.false_eq_true, if_false, hsp2, hpo] at hu
    simp [updatesOf_append, List.mem_append, updatesOf] at hu
    have hm : u ∈ updatesOf (planningPhase task env fuel).trace :=
      List.mem_filterMap.2 hu
    exact planningPhase_updates_prNumber task env fuel u hm
  · simp only [workerRun, hres2, Bool.false_eq_true, if_false, hsp2, hpo,
      failTrace] at hu
    simp [updatesOf_append, List.mem_append, updatesOf] at hu
    rcases hu with ⟨a, ha, hfa⟩ | hu
    · have hm : u ∈ updatesOf (planningPhase task env fuel).trace :=
        List.mem_filterMap.2 ⟨a, ha, hfa⟩
      exact planningPhase_updates_prNumber task env fuel u hm
    · subst hu
      rfl

/-- C1: counterexample.  (i) A skip-plan run whose implement job result
carries no PR URL (worker.py lines 1275-1283) enters `implementing` and
completes, yet no persisted state ever has a `pr_number` — `pr_number`
is not set although the task entered `implementing`.  (ii) In a full
(non-skip) run whose implement job result does carry a canonical PR URL,
nothing is extracted: the local PR variables stay `None` and the
`under_review` update of line 1342 persists no `pr_url`/`pr_number`.
(iii) The extraction is `int(pr_url.split("/")[-1])` — no canonical
forge-URL shape is matched. -/
theorem C1_pr_number_counterexample :
    ((dbStates { skipPlan := true } (workerRun { skipPlan := true }
        { jobs := [some (jobOk none [] none)] } 2).trace).any
      fun s => s.status == TaskStatus.implementing) = true ∧
    ((dbStates { skipPlan := true } (workerRun { skipPlan := true }
        { jobs := [some (jobOk none [] none)] } 2).trace).all
      fun s => s.prNumber == none) = true ∧
    (workerRun { skipPlan := true }
      { jobs := [some (jobOk none [] none)] } 2).status = "completed" ∧
    Eff.updateTask { status := .under_review } ∈
      (workerRun {}
        { jobs := [some (jobOk (some "P")),
                   some (jobOk none [] (some "https://github.com/o/r/pull/7"))],
          planCommentIds := [5], pRecv := [some { action := "approve" }],
          startImpl := some { action := "go" }, checks := [CheckSt.success],
          prPolls := [PrSt.merged], nows := [100] } 2).trace ∧
    ((updatesOf (workerRun {}
        { jobs := [some (jobOk (some "P")),
                   some (jobOk none [] (some "https://github.com/o/r/pull/7"))],
          planCommentIds := [5], pRecv := [some { action := "approve" }],
          startImpl := some { action := "go" }, checks := [CheckSt.success],
          prPolls := [PrSt.merged], nows := [100] } 2).trace).all
      fun u => u.prNumber == none) = true ∧
    parseTrailingInt "no url at all/7" = some 7 := by decide

/-- C1, amended: `pr_number` is persisted by the worker run only through
the skip-plan extraction (and the resume entry): when planning is not
skipped (and the run does not resume), no task update of the whole run
carries a `pr_number`; in skip-plan mode a truthy PR URL in the job
result has its trailing path segment parsed as the PR number — with no
forge-URL shape check — and both fields are persisted with the
`under_review` update before the review loop. -/
theorem C1_pr_number_amended (task : TaskRow) (env : Env) (fuel : Nat)
    (hres : (truthyOptStr task.prUrl && truthyOptInt task.prNumber) = false)
    (hsp : task.skipPlan = false) :
    (∀ u ∈ updatesOf (workerRun task env fuel).trace, u.prNumber = none) ∧
    Eff.updateTask { status := .under_review, prUrl := some "https://github.com/o/r/pull/7", prNumber := some 7 } ∈
      (workerRun { skipPlan := true }
        { jobs := [some (jobOk none [] (some "https://github.com/o/r/pull/7"))],
          checks := [CheckSt.success], prPolls := [PrSt.merged],
          nows := [100] } 2).trace ∧
    parseTrailingInt "https://github.com/o/r/pull/7" = some 7 ∧
    parseTrailingInt "7" = some 7 :=
  ⟨workerRun_updates_prNumber task env fuel hres hsp, by decide, by decide, by decide⟩

/-- C1 witness: the amended statement at the default pending task and an
empty environment. -/
theorem C1_pr_number_amended_witness :
    ((truthyOptStr (({} : TaskRow)).prUrl && truthyOptInt (({} : TaskRow)).prNumber)
        = false ∧
     ({} : TaskRow).skipPlan = false) ∧
    ((∀ u ∈ updatesOf (workerRun {} {} 1).trace, u.prNumber = none) ∧
     Eff.updateTask { status := .under_review, prUrl := some "https://github.com/o/r/pull/7", prNumber := some 7 } ∈
      (workerRun { skipPlan := true }
        { jobs := [some (jobOk none [] (some "https://github.com/o/r/pull/7"))],
          checks := [CheckSt.success], prPolls := [PrSt.merged],
          nows := [100] } 2).trace ∧
     parseTrailingInt "https://github.com/o/r/pull/7" = some 7 ∧
     parseTrailingInt "7" = some 7) :=
  ⟨⟨by decide, by decide⟩, C1_pr_number_amended {} {} 1 (by decide) (by decide)⟩

end Mainloop
